import Mathlib

/-!
Verification of the ingestion-orchestration subsystem of the CTTH backend:
the retrying HTTP fetcher, the per-source status tracker, the trade-record
upsert layer, the Comtrade parsing/storing agent, the AI-search engines,
the derive job, and the daily pipeline orchestrator.  Every definition is a
shallow embedding of the corresponding Python function in
`backend/app/agents` and `backend/app/scheduler`.
-/

set_option maxRecDepth 4000

namespace CTTH

/-! ## RetryingFetcher — `BaseAgent.safe_request`

`safe_request` loops `for attempt in range(max_retries)`; each attempt
either returns the HTTP response, sleeps and retries (429 / 5xx / network
error with attempts remaining), or raises.  We model one attempt's network
behaviour by an `AttemptOutcome`: an HTTP response with a status code and a
body, or a transport-level error (`httpx.RequestError`).  The client is
httpx (`httpx.Client(timeout=60.0)`, redirects not followed), whose
`raise_for_status` raises `HTTPStatusError` for every status outside the
2xx success range — 1xx, 3xx and 4xx/5xx alike. -/

inductive AttemptOutcome (α : Type) where
  | resp (code : Nat) (body : α)
  | netError
deriving Repr, DecidableEq

/-- Outcome of the whole `safe_request` call.  `ok body a` is a successful
return at 0-indexed attempt `a`; `statusError` is the re-raised
`HTTPStatusError` for a non-2xx status that is neither 429 nor a 5xx —
that is, a 1xx, a 3xx, or a 4xx other than 429; `netFail` is the re-raised
`httpx.RequestError` on the last attempt; `retriesExhausted` is the final
`RuntimeError(f"Failed after {max_retries} retries: {url}")`, which carries
the URL. -/
inductive FetchResult (α : Type) where
  | ok (body : α) (attempt : Nat)
  | statusError (code : Nat) (attempt : Nat)
  | netFail (attempt : Nat)
  | retriesExhausted (maxRetries : Nat) (url : String)
deriving Repr, DecidableEq

/-- What one iteration of the `safe_request` loop does after the attempt's
outcome is known: finish with a result, or sleep `wait` seconds and retry.
The branch structure and the sleep formulas are taken verbatim from the
source: a 2xx status passes httpx's `raise_for_status` and is returned; any
other status raises `HTTPStatusError` and enters the handler — on 429 sleep
`2 ** (attempt + 1) * 10`, on a 5xx sleep `2 ** attempt * 5`, and every
remaining status (1xx, 3xx, 4xx other than 429) is re-raised; an
`httpx.RequestError` sleeps `2 ** attempt * 5` and retries when
`attempt < max_retries - 1` (`attemptsRemain`), else is re-raised. -/
inductive StepAction (α : Type) where
  | finish (r : FetchResult α)
  | retry (wait : Nat)
deriving Repr, DecidableEq

def attemptAction {α : Type} (out : AttemptOutcome α) (attempt : Nat)
    (attemptsRemain : Bool) : StepAction α :=
  match out with
  | .resp code body =>
    if 200 ≤ code ∧ code < 300 then .finish (.ok body attempt)
    else if code = 429 then .retry (2 ^ (attempt + 1) * 10)
    else if 500 ≤ code then .retry (2 ^ attempt * 5)
    else .finish (.statusError code attempt)
  | .netError =>
    if attemptsRemain then .retry (2 ^ attempt * 5) else .finish (.netFail attempt)

/-- The loop of `safe_request`.  `fuel` is the number of loop iterations
remaining after the current one (`max_retries - attempt - 1`, so
`0 < fuel` is the source's `attempt < max_retries - 1`); the accumulated
`waits` list records every `time.sleep` argument, most recent first (the
final result reverses it into chronological order).  When the loop runs
out of iterations it raises the retries-exhausted `RuntimeError`. -/
def safeRequestLoop {α : Type} (o : Nat → AttemptOutcome α) (url : String)
    (maxRetries : Nat) : Nat → Nat → List Nat → FetchResult α × List Nat
  | 0, _, waits => (.retriesExhausted maxRetries url, waits.reverse)
  | fuel + 1, attempt, waits =>
    match attemptAction (o attempt) attempt (decide (0 < fuel)) with
    | .finish r => (r, waits.reverse)
    | .retry w => safeRequestLoop o url maxRetries fuel (attempt + 1) (w :: waits)

/-- The call `safe_request(url, params, headers, max_retries)` with an explicit
`max_retries`, returning the result together with the chronological list of
sleeps performed. -/
def safeRequestRun {α : Type} (o : Nat → AttemptOutcome α) (url : String)
    (maxRetries : Nat) : FetchResult α × List Nat :=
  safeRequestLoop o url maxRetries maxRetries 0 []

/-- The default of the `max_retries` parameter in the source is 3. -/
def defaultMaxRetries : Nat := 3

/-- The form of `safe_request` every agent calls, with the default `max_retries`. -/
def safeRequest {α : Type} (o : Nat → AttemptOutcome α) (url : String) :
    FetchResult α × List Nat :=
  safeRequestRun o url defaultMaxRetries

/-! ## SourceStatusTracker — `BaseAgent.update_status` / `increment_api_calls`

The `data_source_status` collection holds one document per source name.  A
document is modelled field-by-field; `last_error_message` distinguishes
"absent" from "explicitly set to None" (`update_status` sets it to `None`
on the `active` branch), hence the `Option (Option String)` type.
Timestamps are abstract `Nat` instants. -/

structure StatusDoc where
  sourceName : String
  status : Option String
  updatedAt : Option Nat
  lastSuccessfulFetch : Option Nat
  lastErrorMessage : Option (Option String)
  recordsFetchedToday : Nat
  apiCallsToday : Nat
deriving Repr, DecidableEq

/-- A status collection: documents in insertion order. -/
abbrev StatusStore : Type := List StatusDoc

/-- Embedding of `find_one({"source_name": name})`. -/
def findStatus (st : StatusStore) (name : String) : Option StatusDoc :=
  st.find? (fun d => d.sourceName = name)

/-- Apply an update operator document to the first document matching the
filter `{"source_name": name}`; documents after the first match are left
untouched (`update_one` semantics). -/
def updateFirstStatus : StatusStore → String → (StatusDoc → StatusDoc) → StatusStore
  | [], _, _ => []
  | d :: rest, name, f =>
    if d.sourceName = name then f d :: rest else d :: updateFirstStatus rest name f

/-- Effect of `update_status`'s update document on one existing document:
`$set {status, updated_at}` plus, on the `active` branch,
`$set {last_successful_fetch: now, last_error_message: None}`, or on the
error branch with a message, `$set {last_error_message: msg}`; and
`$inc {records_fetched_today: records}`.  `$setOnInsert` is ignored for an
existing document. -/
def updateStatusDoc (d : StatusDoc) (now : Nat) (status : String)
    (errorMsg : Option String) (records : Nat) : StatusDoc :=
  let base : StatusDoc :=
    { d with
      status := some status
      updatedAt := some now
      recordsFetchedToday := d.recordsFetchedToday + records }
  if status = "active" then
    { base with lastSuccessfulFetch := some now, lastErrorMessage := some none }
  else
    match errorMsg with
    | some m => { base with lastErrorMessage := some (some m) }
    | none => base

/-- The document created when the upsert in `update_status` matches
nothing: MongoDB builds it from the equality filter (`source_name`), the
`$setOnInsert` document (`source_name` again and `api_calls_today: 0`), and
then applies `$set`/`$inc` as above (`$inc` on an absent field starts from
0). -/
def insertStatusDoc (name : String) (now : Nat) (status : String)
    (errorMsg : Option String) (records : Nat) : StatusDoc :=
  updateStatusDoc
    { sourceName := name, status := none, updatedAt := none,
      lastSuccessfulFetch := none, lastErrorMessage := none,
      recordsFetchedToday := 0, apiCallsToday := 0 }
    now status errorMsg records

/-- Embedding of `BaseAgent.update_status(status, error_msg, records)`: an
`update_one(..., upsert=True)` keyed by `source_name`. -/
def updateStatus (st : StatusStore) (name : String) (now : Nat)
    (status : String) (errorMsg : Option String) (records : Nat) : StatusStore :=
  if st.any (fun d => d.sourceName = name) then
    updateFirstStatus st name (fun d => updateStatusDoc d now status errorMsg records)
  else
    st ++ [insertStatusDoc name now status errorMsg records]

/-- Embedding of `BaseAgent.increment_api_calls(count)`: an `update_one` WITHOUT
`upsert=True` — when no document matches the filter it modifies nothing. -/
def incrementApiCalls (st : StatusStore) (name : String) (count : Nat)
    (now : Nat) : StatusStore :=
  updateFirstStatus st name
    (fun d => { d with apiCallsToday := d.apiCallsToday + count, updatedAt := some now })

/-- Embedding of `BaseAgent.get_api_calls_today`: read the counter, defaulting to 0 when
the document (or field) is absent. -/
def getApiCallsToday (st : StatusStore) (name : String) : Nat :=
  match findStatus st name with
  | some d => d.apiCallsToday
  | none => 0

/-! ## RecordStore — the `trade_data` upsert

Both trade agents issue
`trade_data.update_one(filt, {"$set": upd, "$setOnInsert": {"created_at": now}}, upsert=True)`
where `filt` is the natural key and `upd` the fields supplied by the
current call.  A field-set is modelled with one `Option` per possible
field (`none` = field omitted by this call); numeric measures keep the
upstream value abstractly as an `Int`. -/

structure PDate where
  year : Nat
  month : Nat
  day : Nat
deriving Repr, DecidableEq

structure TradeKey where
  source : String
  reporterCode : String
  partnerCode : String
  hsCode : String
  flow : String
  periodDate : PDate
  frequency : String
deriving Repr, DecidableEq

/-- The `$set` document of a trade upsert (fields a call may supply). -/
structure TradeFields where
  reporterName : Option String
  partnerName : Option String
  hsDescription : Option String
  valueUsd : Option Int
  valueEur : Option Int
  weightKg : Option Int
  quantity : Option Int
  updatedAt : Option Nat
deriving Repr, DecidableEq

/-- A stored `trade_data` document: natural key, the same optional fields,
and the `created_at` stamp set on insert. -/
structure TradeDoc where
  key : TradeKey
  reporterName : Option String
  partnerName : Option String
  hsDescription : Option String
  valueUsd : Option Int
  valueEur : Option Int
  weightKg : Option Int
  quantity : Option Int
  updatedAt : Option Nat
  createdAt : Nat
deriving Repr, DecidableEq

abbrev TradeStore : Type := List TradeDoc

/-- Effect of `$set` on one field: a supplied value overwrites, an omitted field is
left untouched. -/
def ovr {α : Type} (new old : Option α) : Option α :=
  match new with
  | some v => some v
  | none => old

/-- Apply a `$set` document to an existing trade document. -/
def applySetTrade (d : TradeDoc) (f : TradeFields) : TradeDoc :=
  { d with
    reporterName := ovr f.reporterName d.reporterName
    partnerName := ovr f.partnerName d.partnerName
    hsDescription := ovr f.hsDescription d.hsDescription
    valueUsd := ovr f.valueUsd d.valueUsd
    valueEur := ovr f.valueEur d.valueEur
    weightKg := ovr f.weightKg d.weightKg
    quantity := ovr f.quantity d.quantity
    updatedAt := ovr f.updatedAt d.updatedAt }

/-- The document created when the upsert matches nothing: the key fields of
the filter, the `$set` fields, and `$setOnInsert {created_at: now}`. -/
def insertTradeDoc (k : TradeKey) (f : TradeFields) (now : Nat) : TradeDoc :=
  { key := k
    reporterName := f.reporterName
    partnerName := f.partnerName
    hsDescription := f.hsDescription
    valueUsd := f.valueUsd
    valueEur := f.valueEur
    weightKg := f.weightKg
    quantity := f.quantity
    updatedAt := f.updatedAt
    createdAt := now }

def updateFirstTrade : TradeStore → TradeKey → (TradeDoc → TradeDoc) → TradeStore
  | [], _, _ => []
  | d :: rest, k, f =>
    if d.key = k then f d :: rest else d :: updateFirstTrade rest k f

/-- The shared trade-record upsert:
`update_one(filt, {"$set": upd, "$setOnInsert": {"created_at": now}}, upsert=True)`. -/
def upsertTrade (st : TradeStore) (k : TradeKey) (f : TradeFields) (now : Nat) : TradeStore :=
  if st.any (fun d => d.key = k) then
    updateFirstTrade st k (fun d => applySetTrade d f)
  else
    st ++ [insertTradeDoc k f now]

def findTrade (st : TradeStore) (k : TradeKey) : Option TradeDoc :=
  st.find? (fun d => d.key = k)

/-- Number of stored documents with natural key `k`. -/
def countTrade (st : TradeStore) (k : TradeKey) : Nat :=
  st.countP (fun d => d.key = k)

/-! ## Python `int()` and `datetime.date` — `ComtradeAgent._parse_period`

`_parse_period` runs `date(int(s), 1, 1)` for a length-4 string and
`date(int(s[:4]), int(s[4:]), 1)` for a length-6 string, returning `None`
on any `ValueError`.  Python's `int()` strips surrounding whitespace,
accepts one leading sign, and allows single underscores between digits;
`date` requires `1 ≤ year ≤ 9999` and `1 ≤ month ≤ 12` (the day is always
1 here, valid for every month). -/

def isPySpace (c : Char) : Bool :=
  c = ' ' || c = '\t' || c = '\n' || c = '\r' || c = '\x0b' || c = '\x0c'

def digitVal (c : Char) : Nat := c.toNat - 48

/-- Continue a digit run, allowing a single `_` strictly between digits. -/
def pyDigitsGo : List Char → Nat → Option Nat
  | [], acc => some acc
  | '_' :: c :: rest, acc =>
    if c.isDigit then pyDigitsGo rest (acc * 10 + digitVal c) else none
  | ['_'], _ => none
  | c :: rest, acc =>
    if c.isDigit then pyDigitsGo rest (acc * 10 + digitVal c) else none

/-- A nonempty digit run starting with a digit. -/
def pyDigits : List Char → Option Nat
  | [] => none
  | c :: rest => if c.isDigit then pyDigitsGo rest (digitVal c) else none

/-- Python `int(s)` restricted to ASCII decimal strings. -/
def pyInt (s : String) : Option Int :=
  let t := ((s.toList.dropWhile isPySpace).reverse.dropWhile isPySpace).reverse
  match t with
  | [] => none
  | c :: rest =>
    if c = '-' then (pyDigits rest).map (fun n => -(n : Int))
    else if c = '+' then (pyDigits rest).map (fun n => (n : Int))
    else (pyDigits (c :: rest)).map (fun n => (n : Int))

/-- Embedding of `datetime.date(y, m, 1)`, `None` standing for the raised `ValueError`. -/
def pyDate (y m : Int) : Option PDate :=
  if 1 ≤ y ∧ y ≤ 9999 ∧ 1 ≤ m ∧ m ≤ 12 then
    some ⟨y.toNat, m.toNat, 1⟩
  else none

/-- Substring of `s` from code-point index `a` (inclusive) to `b`
(exclusive), as in Python slicing for `0 ≤ a ≤ b`. -/
def strSlice (s : String) (a b : Nat) : String :=
  String.mk ((s.toList.drop a).take (b - a))

/-- Embedding of `ComtradeAgent._parse_period`. -/
def parsePeriodComtrade (s : String) : Option PDate :=
  if s.length = 4 then
    (pyInt s).bind (fun y => pyDate y 1)
  else if s.length = 6 then
    (pyInt (strSlice s 0 4)).bind (fun y =>
      (pyInt (strSlice s 4 6)).bind (fun m => pyDate y m))
  else none

/-! ## ComtradeAgent — `_parse_and_store`, `_fetch_world` / `_fetch_partners`,
`fetch_data` -/

/-- The map `HS_CHAPTER_DESCRIPTIONS_FR` from `app/agents/constants.py`. -/
def hsChapterDescriptionsFr (ch : String) : Option String :=
  if ch = "50" then some "Soie"
  else if ch = "51" then some "Laine, poils fins ou grossiers"
  else if ch = "52" then some "Coton"
  else if ch = "53" then some "Autres fibres textiles vegetales"
  else if ch = "54" then some "Filaments synthetiques ou artificiels"
  else if ch = "55" then some "Fibres synthetiques ou artificielles discontinues"
  else if ch = "56" then some "Ouates, feutres et non-tisses"
  else if ch = "57" then some "Tapis et autres revetements de sol"
  else if ch = "58" then some "Tissus speciaux"
  else if ch = "59" then some "Tissus impregnes, enduits ou recouverts"
  else if ch = "60" then some "Etoffes de bonneterie"
  else if ch = "61" then some "Vetements et accessoires en bonneterie"
  else if ch = "62" then some "Vetements et accessoires autres qu'en bonneterie"
  else if ch = "63" then some "Autres articles textiles confectionnes"
  else none

/-- One element of the `data` array of a Comtrade v1 response, with the
fields `_parse_and_store` reads (absent string fields default to `""` via
`rec.get(..., "")`, absent measures to `None`). -/
structure ComtradeRaw where
  flowCode : String
  cmdCode : String
  period : String
  reporterCode : String
  partnerCode : String
  reporterDesc : String
  partnerDesc : String
  cmdDescE : String
  primaryValue : Option Int
  netWgt : Option Int
  qty : Option Int
deriving Repr, DecidableEq

/-- The per-record body of the `_parse_and_store` loop up to the upsert:
map `flowCode` `M`/`X` to `import`/`export` (anything else: `continue`),
parse the period (`None`: `continue`), and build the natural-key filter and
the `$set` document. -/
def comtradeProcessRecord (now : Nat) (rec : ComtradeRaw) : Option (TradeKey × TradeFields) :=
  let flowOpt : Option String :=
    if rec.flowCode = "M" then some "import"
    else if rec.flowCode = "X" then some "export"
    else none
  match flowOpt with
  | none => none
  | some flow =>
    match parsePeriodComtrade rec.period with
    | none => none
    | some pd =>
      let chapter := if 2 ≤ rec.cmdCode.length then strSlice rec.cmdCode 0 2 else rec.cmdCode
      let k : TradeKey :=
        { source := "comtrade"
          reporterCode := rec.reporterCode
          partnerCode := rec.partnerCode
          hsCode := rec.cmdCode
          flow := flow
          periodDate := pd
          frequency := "A" }
      let f : TradeFields :=
        { reporterName := some rec.reporterDesc
          partnerName := some rec.partnerDesc
          hsDescription := some ((hsChapterDescriptionsFr chapter).getD rec.cmdDescE)
          valueUsd := rec.primaryValue
          valueEur := none
          weightKg := rec.netWgt
          quantity := rec.qty
          updatedAt := some now }
      some (k, f)

/-- Embedding of `ComtradeAgent._parse_and_store`: iterate the batch, skip records whose
flow code or period is rejected, upsert the rest, and count the upserts.
A skipped record leaves the store untouched and the loop continues. -/
def comtradeParseAndStore (st : TradeStore) (now : Nat) (recs : List ComtradeRaw) :
    TradeStore × Nat :=
  recs.foldl
    (fun acc rec =>
      match comtradeProcessRecord now rec with
      | none => acc
      | some (k, f) => (upsertTrade acc.1 k f now, acc.2 + 1))
    (st, 0)

/-- The constant `SOURCE_COMTRADE` from `constants.py` (the status-row key; note the
stored trade documents use the distinct literal `"comtrade"`). -/
def sourceComtrade : String := "un_comtrade"

def comtradeBaseUrl : String := "https://comtradeapi.un.org/data/v1/get/C/A/HS"

/-- The databases a trade agent touches. -/
structure ComtradeDb where
  statusStore : StatusStore
  trade : TradeStore
deriving Repr, DecidableEq

/-- A canonical message for each way `safe_request` can raise. -/
def fetchErrMsg {α : Type} : FetchResult α → String
  | .ok _ _ => ""
  | .statusError code _ => "HTTP status error " ++ toString code
  | .netFail _ => "request error"
  | .retriesExhausted m url => "Failed after " ++ toString m ++ " retries: " ++ url

/-- Embedding of `_fetch_world` / `_fetch_partners` (identical but for the query
parameters): `safe_request` the endpoint, then `increment_api_calls()`,
then `_parse_and_store(resp.json())`.  Returns the raised-or-returned
outcome together with the number of `safe_request` calls issued (always
one).  When `safe_request` raises, the exception propagates BEFORE
`increment_api_calls` runs, so the counter is untouched. -/
def comtradeFetchCall (o : Nat → AttemptOutcome (List ComtradeRaw))
    (db : ComtradeDb) (now : Nat) : Except String (Nat × ComtradeDb) × Nat :=
  match (safeRequest o comtradeBaseUrl).1 with
  | .ok body _ =>
    let st1 := incrementApiCalls db.statusStore sourceComtrade 1 now
    let pr := comtradeParseAndStore db.trade now body
    (.ok (pr.2, { statusStore := st1, trade := pr.1 }), 1)
  | r => (.error (fetchErrMsg r), 1)

/-- Embedding of `ComtradeAgent.fetch_data`: missing API key → return 0; recorded
`api_calls_today ≥ 480` → return 0 before any HTTP call; otherwise run the
world fetch then the partner fetch, each in its own `try/except` so a
failure contributes 0 records and leaves the databases as they were.
The final component counts `safe_request` calls issued. -/
def comtradeFetchData (apiKey : Option String)
    (oWorld oPartners : Nat → AttemptOutcome (List ComtradeRaw))
    (db : ComtradeDb) (now : Nat) : Nat × ComtradeDb × Nat :=
  match apiKey with
  | none => (0, db, 0)
  | some _ =>
    let calls := getApiCallsToday db.statusStore sourceComtrade
    if 480 ≤ calls then (0, db, 0)
    else
      let r1 := comtradeFetchCall oWorld db now
      let s1 : Nat × ComtradeDb :=
        match r1.1 with
        | .ok (n, db1) => (n, db1)
        | .error _ => (0, db)
      let r2 := comtradeFetchCall oPartners s1.2 now
      let s2 : Nat × ComtradeDb :=
        match r2.1 with
        | .ok (n, db2) => (n, db2)
        | .error _ => (0, s1.2)
      (s1.1 + s2.1, s2.2, r1.2 + r2.2)

/-! ## PipelineOrchestrator — `run_daily_pipeline`

The orchestrator is payload-agnostic: it stores whatever each job returns
and maps a raised exception to `{"status": "error", "message": str(exc)}`
(via `return_exceptions=True` for the parallel phase, via `try/except` for
each sequential phase).  We therefore keep the payload type `α` abstract
and record the run as a trace of events: the six phase executions in
order, then the single `scheduler_runs.insert_one`. -/

/-- A job either returned a payload or raised. -/
inductive RunOutcome (α : Type) where
  | ok (v : α)
  | raised (msg : String)
deriving Repr, DecidableEq

/-- One entry recorded in `phase_results`: the job's payload, or the
`{"status": "error", "message": msg}` dict built from an exception. -/
inductive PhaseEntry (α : Type) where
  | value (v : α)
  | errorEntry (message : String)
deriving Repr, DecidableEq

def outcomeEntry {α : Type} : RunOutcome α → PhaseEntry α
  | .ok v => .value v
  | .raised msg => .errorEntry msg

/-- A phase's value in `phase_results`: a list of per-agent entries for the
parallel phase, a single entry for a sequential phase. -/
inductive PhaseVal (α : Type) where
  | agents (entries : List (PhaseEntry α))
  | single (e : PhaseEntry α)
deriving Repr, DecidableEq

/-- The document inserted into `scheduler_runs` at the end of the run. -/
structure RunRecord (α : Type) where
  runId : String
  startedAt : Nat
  completedAt : Nat
  durationSeconds : Nat
  phaseResults : List (String × PhaseVal α)
  status : String
deriving Repr, DecidableEq

inductive PipelineEvent (α : Type) where
  | phaseStart (name : String)
  | insertRun (r : RunRecord α)
deriving Repr, DecidableEq

def isInsertRun {α : Type} : PipelineEvent α → Bool
  | .insertRun _ => true
  | .phaseStart _ => false

/-- The `phase_results` dict accumulated by `run_daily_pipeline`, in
insertion order. -/
def pipelinePhaseResults {α : Type} (trade : List (RunOutcome α))
    (news mr derive fw reset : RunOutcome α) : List (String × PhaseVal α) :=
  [("trade_agents", .agents (trade.map outcomeEntry)),
   ("news_agent", .single (outcomeEntry news)),
   ("market_research", .single (outcomeEntry mr)),
   ("derive_data", .single (outcomeEntry derive)),
   ("frameworks", .single (outcomeEntry fw)),
   ("reset_counters", .single (outcomeEntry reset))]

/-- The run document written once at run end: id, start/end time, duration,
the accumulated `phase_results`, and the hard-coded status `"completed"`. -/
def pipelineRunRecord {α : Type} (runId : String) (t0 t1 : Nat)
    (trade : List (RunOutcome α)) (news mr derive fw reset : RunOutcome α) :
    RunRecord α :=
  { runId := runId
    startedAt := t0
    completedAt := t1
    durationSeconds := t1 - t0
    phaseResults := pipelinePhaseResults trade news mr derive fw reset
    status := "completed" }

/-- Embedding of `run_daily_pipeline` as its trace of phase executions and persistence:
phases 1–6 run unconditionally in order (each failure contained into its
`phase_results` entry), and the one `insert_one` happens after phase 6. -/
def runDailyPipeline {α : Type} (runId : String) (t0 t1 : Nat)
    (trade : List (RunOutcome α)) (news mr derive fw reset : RunOutcome α) :
    List (PipelineEvent α) :=
  [.phaseStart "trade_agents",
   .phaseStart "news_agent",
   .phaseStart "market_research",
   .phaseStart "derive_data",
   .phaseStart "frameworks",
   .phaseStart "reset_counters",
   .insertRun (pipelineRunRecord runId t0 t1 trade news mr derive fw reset)]

/-- The dict a phase-1 job returns: `{"source": ..., "records": ...,
"status": "success"}` on success, `{"source": ..., "status": "error",
"message": ...}` when the agent body raised (caught inside the job). -/
structure JobResult where
  source : String
  records : Option Nat
  status : String
  message : Option String
deriving Repr, DecidableEq

/-- Embedding of `job_fetch_eurostat` (and its three siblings, which differ only in the
agent class and source literal): the job itself never raises — it converts
the caught exception into an error dict. -/
def jobFetchEurostat (fetchOutcome : Except String Nat) : JobResult :=
  match fetchOutcome with
  | .ok n => { source := "eurostat", records := some n, status := "success", message := none }
  | .error e => { source := "eurostat", records := none, status := "error", message := some e }

def isRaised {α : Type} : RunOutcome α → Bool
  | .raised _ => true
  | .ok _ => false

/-- An entry shaped like the error dict the gather step builds. -/
def isErrorEntry {α : Type} : PhaseEntry α → Bool
  | .errorEntry _ => true
  | .value _ => false

/-- An entry whose payload is a job dict with `"status": "success"`. -/
def isSuccessEntry : PhaseEntry JobResult → Bool
  | .value r => r.status = "success"
  | .errorEntry _ => false

/-! ## AI-search engines — `MarketResearchAgent._ai_search` and
`GeneralWatcher.fetch_data` -/

/-- One engine attempt: the returned text, or a raised exception (an
OpenAI SDK error, or `raise_for_status`/transport error for Gemini). -/
inductive EngineOutcome where
  | ok (content : String)
  | exn (msg : String)
deriving Repr, DecidableEq

def engineContent : EngineOutcome → String
  | .ok s => s
  | .exn _ => ""

/-- Embedding of `MarketResearchAgent._ai_search`: try OpenAI first when a credential is
configured; on success return its content without touching Gemini; on
failure (or no OpenAI credential) try Gemini when configured; if both fail
or neither is configured, return `""`.  The two booleans in the result
record whether OpenAI resp. Gemini was invoked. -/
def aiSearch (openaiConfigured : Bool) (openaiRes : EngineOutcome)
    (geminiConfigured : Bool) (geminiRes : EngineOutcome) :
    String × Bool × Bool :=
  if openaiConfigured then
    match openaiRes with
    | .ok s => (s, true, false)
    | .exn _ =>
      if geminiConfigured then
        match geminiRes with
        | .ok s => (s, true, true)
        | .exn _ => ("", true, true)
      else ("", true, false)
  else
    if geminiConfigured then
      match geminiRes with
      | .ok s => (s, false, true)
      | .exn _ => ("", false, true)
    else ("", false, false)

/-- The guard shared by `_search_companies` / `_search_events` /
`_search_insights`: `raw = self._ai_search(...); if not raw: return 0`. -/
def searchStepRecords (raw : String) (parsedCount : Nat) : Nat :=
  if raw = "" then 0 else parsedCount

/-- The list `_SEARCH_QUERIES` of `general_watcher.py`. -/
def gwQueries : List String :=
  ["Actualités secteur textile habillement Maroc exportations 2025 2026",
   "Accords commerciaux textile Maroc Union Européenne nearshoring",
   "Réglementation importation textile durabilité CBAM Union Européenne",
   "Marché mondial textile tendances prix coton fibres synthétiques 2026",
   "Concurrence textile Maroc Turquie Bangladesh Vietnam",
   "OTEXA US textile import data Morocco apparel trade 2025 2026",
   "Eurostat EU Morocco textile trade statistics latest"]

/-- Embedding of `GeneralWatcher.fetch_data`: when the OpenAI credential is configured,
run `_openai_search` on EVERY query (each wrapped in `try/except`, a
failure contributing 0); then, when the Gemini credential is configured,
run `_gemini_search` on EVERY query likewise; return the summed count.
The result records (total, OpenAI invocations, Gemini invocations); each
configured engine is invoked once per query unconditionally. -/
def gwFetchData (openaiConfigured geminiConfigured : Bool)
    (openaiRes geminiRes : String → RunOutcome Nat) : Nat × Nat × Nat :=
  let openaiPart : Nat × Nat :=
    if openaiConfigured then
      (gwQueries.foldl
        (fun acc q => match openaiRes q with | .ok n => acc + n | .raised _ => acc) 0,
       gwQueries.length)
    else (0, 0)
  let geminiPart : Nat × Nat :=
    if geminiConfigured then
      (gwQueries.foldl
        (fun acc q => match geminiRes q with | .ok n => acc + n | .raised _ => acc) 0,
       gwQueries.length)
    else (0, 0)
  (openaiPart.1 + geminiPart.1, openaiPart.2, geminiPart.2)

/-! ## Derive phase — `job_derive_market_data`

The job seeds `market_segments` (HS-chapter axis then the fixed aggregate
segments) and derives `market_size_series` rows from two aggregations over
`trade_data`, in every case with the pattern "if `find_one` by derived key
misses, `insert_one`" — captured by the generic `insertIfMissing` fold.
The `$sort` stages only order the aggregation output and are not modelled;
`_id` values (UUIDs) are not modelled. -/

/-- The shared insert-if-absent loop: for each candidate in order, insert
`mk c` unless a stored document already matches `c`'s derived key, and
count the inserts. -/
def insertIfMissing {α β : Type} (keyMatch : β → α → Bool) (mk : β → α)
    (init : List α × Nat) (cands : List β) : List α × Nat :=
  cands.foldl
    (fun acc c =>
      if acc.1.any (keyMatch c) then acc else (acc.1 ++ [mk c], acc.2 + 1))
    init

structure SegmentDoc where
  axis : String
  code : String
  labelFr : String
  labelEn : String
  parentCode : Option String
  descriptionFr : String
  createdAt : Nat
deriving Repr, DecidableEq

structure MarketSizeDoc where
  segmentCode : String
  geographyCode : String
  year : Nat
  valueUsd : Int
  unit : String
  flow : String
  source : String
  createdAt : Nat
deriving Repr, DecidableEq

/-- The constant `TEXTILE_HS_CHAPTERS = [str(i) for i in range(50, 64)]`. -/
def textileHsChapters : List String :=
  (List.range 14).map (fun i => toString (50 + i))

/-- The `find_one({"axis": "hs_chapter", "code": chapter})` key test. -/
def chapterSegMatch (ch : String) (d : SegmentDoc) : Bool :=
  d.axis = "hs_chapter" && d.code = ch

/-- The segment document `new_segment_doc` builds in the chapter loop
(`label_fr` falls back to `f"Chapitre {chapter}"`). -/
def mkChapterSeg (now : Nat) (ch : String) : SegmentDoc :=
  let labelFr := (hsChapterDescriptionsFr ch).getD ("Chapitre " ++ ch)
  { axis := "hs_chapter"
    code := ch
    labelFr := labelFr
    labelEn := "Chapter " ++ ch
    parentCode := none
    descriptionFr := "Chapitre SH " ++ ch ++ " — " ++ labelFr
    createdAt := now }

/-- One tuple of the fixed `aggregate_segments` list. -/
structure AggSeg where
  axis : String
  code : String
  labelFr : String
  labelEn : String
deriving Repr, DecidableEq

def aggregateSegments : List AggSeg :=
  [⟨"product_category", "apparel", "Vetements et habillement", "Apparel & Clothing"⟩,
   ⟨"product_category", "home_textiles", "Textiles de maison", "Home Textiles"⟩,
   ⟨"product_category", "technical_textiles", "Textiles techniques", "Technical Textiles"⟩,
   ⟨"product_category", "raw_materials", "Matieres premieres textiles", "Raw Textile Materials"⟩,
   ⟨"fiber_type", "cotton", "Coton", "Cotton"⟩,
   ⟨"fiber_type", "synthetic", "Fibres synthetiques", "Synthetic Fibers"⟩,
   ⟨"fiber_type", "wool", "Laine", "Wool"⟩,
   ⟨"fiber_type", "silk", "Soie", "Silk"⟩]

def aggSegMatch (c : AggSeg) (d : SegmentDoc) : Bool :=
  d.axis = c.axis && d.code = c.code

def mkAggSeg (now : Nat) (c : AggSeg) : SegmentDoc :=
  { axis := c.axis
    code := c.code
    labelFr := c.labelFr
    labelEn := c.labelEn
    parentCode := none
    descriptionFr := ""
    createdAt := now }

/-- The `$group` key of the first aggregation:
`{"year": {"$year": "$period_date"}, "chapter": {"$substr": ["$hs_code", 0, 2]},
"flow": "$flow"}`. -/
structure GroupKey where
  year : Nat
  chapter : String
  flow : String
deriving Repr, DecidableEq

def tradeGroupKey (d : TradeDoc) : GroupKey :=
  { year := d.key.periodDate.year
    chapter := strSlice d.key.hsCode 0 2
    flow := d.key.flow }

/-- Embedding of `{"$sum": {"$ifNull": ["$value_usd", {"$ifNull": ["$value_eur", 0]}]}}`. -/
def tradeValue (d : TradeDoc) : Int :=
  match d.valueUsd with
  | some v => v
  | none =>
    match d.valueEur with
    | some v => v
    | none => 0

/-- Accumulate one value into the group whose key is `k` (appending a new
group on first sight). -/
def addGroup {κ : Type} [DecidableEq κ] :
    List (κ × Int) → κ → Int → List (κ × Int)
  | [], k, v => [(k, v)]
  | (k', s) :: rest, k, v =>
    if k' = k then (k', s + v) :: rest else (k', s) :: addGroup rest k v

/-- The first `$group` stage over `trade_data`. -/
def tradeGroups (trades : TradeStore) : List (GroupKey × Int) :=
  trades.foldl (fun acc d => addGroup acc (tradeGroupKey d) (tradeValue d)) []

/-- The second `$group` stage (totals by year and flow). -/
def tradeTotalGroups (trades : TradeStore) : List ((Nat × String) × Int) :=
  trades.foldl
    (fun acc d => addGroup acc (d.key.periodDate.year, d.key.flow) (tradeValue d)) []

/-- Embedding of `flow = r["_id"]["flow"] or "total"` (falsy flow becomes `"total"`). -/
def flowOrTotal (flow : String) : String :=
  if flow = "" then "total" else flow

/-- The skip test `if not chapter or chapter in ("TO", "SI", ""): continue`. -/
def chapterSkipped (ch : String) : Bool :=
  ch = "" || ch = "TO" || ch = "SI"

def sizeKeyMatch (seg : String) (year : Nat) (flow : String) (d : MarketSizeDoc) : Bool :=
  d.segmentCode = seg && d.geographyCode = "MA" && d.year = year && d.flow = flow

def chapterSizeMatch (g : GroupKey × Int) (d : MarketSizeDoc) : Bool :=
  sizeKeyMatch g.1.chapter g.1.year (flowOrTotal g.1.flow) d

def mkChapterSize (now : Nat) (g : GroupKey × Int) : MarketSizeDoc :=
  { segmentCode := g.1.chapter
    geographyCode := "MA"
    year := g.1.year
    valueUsd := g.2
    unit := "USD"
    flow := flowOrTotal g.1.flow
    source := "derived_from_trade_data"
    createdAt := now }

def totalSizeMatch (g : (Nat × String) × Int) (d : MarketSizeDoc) : Bool :=
  sizeKeyMatch "ALL" g.1.1 (flowOrTotal g.1.2) d

def mkTotalSize (now : Nat) (g : (Nat × String) × Int) : MarketSizeDoc :=
  { segmentCode := "ALL"
    geographyCode := "MA"
    year := g.1.1
    valueUsd := g.2
    unit := "USD"
    flow := flowOrTotal g.1.2
    source := "derived_from_trade_data"
    createdAt := now }

/-- The collections `job_derive_market_data` reads and writes. -/
structure DeriveDb where
  segments : List SegmentDoc
  sizes : List MarketSizeDoc
  trades : TradeStore
deriving Repr, DecidableEq

/-- First loop of the derive job: seed the missing HS-chapter segments. -/
def deriveSegStage1 (now : Nat) (segs : List SegmentDoc) : List SegmentDoc × Nat :=
  insertIfMissing chapterSegMatch (mkChapterSeg now) (segs, 0) textileHsChapters

/-- Second loop: seed the missing fixed aggregate segments, continuing the
`seg_count` accumulator. -/
def deriveSegStage2 (now : Nat) (segs : List SegmentDoc) (segCount : Nat) :
    List SegmentDoc × Nat :=
  insertIfMissing aggSegMatch (mkAggSeg now) (segs, segCount) aggregateSegments

/-- The per-chapter aggregation results the third loop iterates, with its
`continue` filter applied (`if not chapter or chapter in ("TO", "SI", "")`). -/
def deriveChapterCands (trades : TradeStore) : List (GroupKey × Int) :=
  (tradeGroups trades).filter (fun g => !chapterSkipped g.1.chapter)

/-- Third loop: insert the missing per-chapter `market_size_series` rows. -/
def deriveSizeStage1 (now : Nat) (trades : TradeStore) (sizes : List MarketSizeDoc) :
    List MarketSizeDoc × Nat :=
  insertIfMissing chapterSizeMatch (mkChapterSize now) (sizes, 0) (deriveChapterCands trades)

/-- Fourth loop: insert the missing `"ALL"` total rows, continuing the
`size_count` accumulator. -/
def deriveSizeStage2 (now : Nat) (trades : TradeStore) (sizes : List MarketSizeDoc)
    (sizeCount : Nat) : List MarketSizeDoc × Nat :=
  insertIfMissing totalSizeMatch (mkTotalSize now) (sizes, sizeCount) (tradeTotalGroups trades)

/-- Embedding of `job_derive_market_data`: run the four insert-if-absent loops in order
and report `(segments_created, size_entries_created)`.  `trade_data` is
only read. -/
def jobDeriveMarketData (db : DeriveDb) (now : Nat) : DeriveDb × Nat × Nat :=
  let segStep1 := deriveSegStage1 now db.segments
  let segStep2 := deriveSegStage2 now segStep1.1 segStep1.2
  let sizeStep1 := deriveSizeStage1 now db.trades db.sizes
  let sizeStep2 := deriveSizeStage2 now db.trades sizeStep1.1 sizeStep1.2
  ({ segments := segStep2.1, sizes := sizeStep2.1, trades := db.trades },
   segStep2.2, sizeStep2.2)

/-! ## Concrete sample values for closed instances -/

def isOkResult {α : Type} : FetchResult α → Bool
  | .ok _ _ => true
  | .statusError _ _ => false
  | .netFail _ => false
  | .retriesExhausted _ _ => false

/-- A trade natural key matching the spec's end-to-end scenario
(reporter 504, partner 0, commodity "61", export, 2025, annual). -/
def wKey : TradeKey :=
  { source := "comtrade", reporterCode := "504", partnerCode := "0",
    hsCode := "61", flow := "export", periodDate := ⟨2025, 1, 1⟩, frequency := "A" }

/-- First field-set: value 1000 and a weight measure. -/
def wF1 : TradeFields :=
  { reporterName := some "Maroc", partnerName := some "Monde",
    hsDescription := some "Vetements", valueUsd := some 1000, valueEur := none,
    weightKg := some 50, quantity := none, updatedAt := some 1 }

/-- Second field-set: value 1200, weight omitted. -/
def wF2 : TradeFields :=
  { reporterName := some "Maroc", partnerName := some "Monde",
    hsDescription := some "Vetements", valueUsd := some 1200, valueEur := none,
    weightKg := none, quantity := none, updatedAt := some 2 }

/-- A network that always answers HTTP 404. -/
def o404 : Nat → AttemptOutcome (List ComtradeRaw) := fun _ => .resp 404 []

/-- A network that always answers HTTP 301 (a redirect; httpx does not
follow it and `raise_for_status` raises on it). -/
def o301 : Nat → AttemptOutcome (List ComtradeRaw) := fun _ => .resp 301 []

/-- A network that always answers HTTP 200 with an empty `data` array. -/
def o200 : Nat → AttemptOutcome (List ComtradeRaw) := fun _ => .resp 200 []

/-- A Comtrade status row with 5 calls recorded today. -/
def c5Row : StatusDoc :=
  { sourceName := "un_comtrade", status := some "active", updatedAt := none,
    lastSuccessfulFetch := none, lastErrorMessage := none,
    recordsFetchedToday := 0, apiCallsToday := 5 }

/-- A database whose Comtrade status row has 5 calls recorded today. -/
def c5Db : ComtradeDb := { statusStore := [c5Row], trade := [] }

/-- A database whose Comtrade status row already records 480 calls today. -/
def gateDb : ComtradeDb :=
  { statusStore := [{ c5Row with apiCallsToday := 480 }], trade := [] }

/-- The spec's notion of a well-formed yearly period string: four decimal
digits. -/
def isFourDigitYear (s : String) : Bool :=
  s.length = 4 && s.toList.all Char.isDigit

/-- The spec's notion of a well-formed monthly period string: six decimal
digits (year then month). -/
def isSixDigitYearMonth (s : String) : Bool :=
  s.length = 6 && s.toList.all Char.isDigit

/-- A record whose period is `" 123"` — length 4 but not four digits;
Python's `int(" 123")` parses it to year 123 anyway. -/
def wsPeriodRec : ComtradeRaw :=
  { flowCode := "M", cmdCode := "61", period := " 123", reporterCode := "504",
    partnerCode := "0", reporterDesc := "Maroc", partnerDesc := "Monde",
    cmdDescE := "Bonneterie", primaryValue := some 10, netWgt := none, qty := none }

/-- A record with an unrecognized flow code. -/
def cxBadFlowRec : ComtradeRaw :=
  { flowCode := "T", cmdCode := "61", period := "2024", reporterCode := "504",
    partnerCode := "0", reporterDesc := "Maroc", partnerDesc := "Monde",
    cmdDescE := "Bonneterie", primaryValue := some 10, netWgt := none, qty := none }

/-- A record with a length-2 period string, rejected by `_parse_period`. -/
def cxShortPeriodRec : ComtradeRaw :=
  { flowCode := "M", cmdCode := "61", period := "20", reporterCode := "504",
    partnerCode := "0", reporterDesc := "Maroc", partnerDesc := "Monde",
    cmdDescE := "Bonneterie", primaryValue := some 10, netWgt := none, qty := none }

/-- A well-formed export record for the year 2024. -/
def cxGoodRec : ComtradeRaw :=
  { flowCode := "X", cmdCode := "61", period := "2024", reporterCode := "504",
    partnerCode := "0", reporterDesc := "Maroc", partnerDesc := "Monde",
    cmdDescE := "Bonneterie", primaryValue := some 10, netWgt := none, qty := none }

/-! ## Theorems -/

/-- One unrolling of the `safe_request` loop. -/
theorem safeRequestLoop_succ {α : Type} (o : Nat → AttemptOutcome α) (url : String)
    (m fuel attempt : Nat) (waits : List Nat) :
    safeRequestLoop o url m (fuel + 1) attempt waits =
      match attemptAction (o attempt) attempt (decide (0 < fuel)) with
      | .finish r => (r, waits.reverse)
      | .retry w => safeRequestLoop o url m fuel (attempt + 1) (w :: waits) := rfl

/-- C4: `safe_request`'s retry policy, with the loop's 0-indexed `attempt`
(the claim's 1-indexed attempt `n` is `attempt + 1`, so the 429 wait
`2 ^ (attempt + 1) * 10` is the claim's `10 * 2^n` and the 5xx/network wait
`2 ^ attempt * 5` is the claim's `5 * 2^(n-1)`): a 2xx response is returned
(httpx's `raise_for_status` passes only for 2xx); an HTTP 429 sleeps
`2 ^ (attempt + 1) * 10` seconds and retries; an HTTP 5xx sleeps
`2 ^ attempt * 5` seconds and retries; a network error sleeps
`2 ^ attempt * 5` seconds and retries when attempts remain and otherwise
propagates; every other non-2xx status — any 4xx other than 429, and also
1xx/3xx, which httpx's `raise_for_status` raises for as well — fails
immediately without a retry; the retry bound defaults to 3; and a run whose
every attempt is rate-limited raises the retries-exhausted error carrying
the URL after exactly `maxRetries = 3` attempts (three sleeps of 20, 40, 80
seconds). -/
theorem C4_safe_request_retry_policy :
    (∀ (α : Type) (o : Nat → AttemptOutcome α) (url : String)
        (m fuel attempt : Nat) (waits : List Nat) (code : Nat) (body : α),
      o attempt = .resp code body → 200 ≤ code → code < 300 →
      safeRequestLoop o url m (fuel + 1) attempt waits
        = (.ok body attempt, waits.reverse))
  ∧ (∀ (α : Type) (o : Nat → AttemptOutcome α) (url : String)
        (m fuel attempt : Nat) (waits : List Nat) (body : α),
      o attempt = .resp 429 body →
      safeRequestLoop o url m (fuel + 1) attempt waits
        = safeRequestLoop o url m fuel (attempt + 1) (2 ^ (attempt + 1) * 10 :: waits))
  ∧ (∀ (α : Type) (o : Nat → AttemptOutcome α) (url : String)
        (m fuel attempt : Nat) (waits : List Nat) (code : Nat) (body : α),
      o attempt = .resp code body → 500 ≤ code →
      safeRequestLoop o url m (fuel + 1) attempt waits
        = safeRequestLoop o url m fuel (attempt + 1) (2 ^ attempt * 5 :: waits))
  ∧ (∀ (α : Type) (o : Nat → AttemptOutcome α) (url : String)
        (m fuel attempt : Nat) (waits : List Nat),
      o attempt = .netError →
      safeRequestLoop o url m (fuel + 2) attempt waits
        = safeRequestLoop o url m (fuel + 1) (attempt + 1) (2 ^ attempt * 5 :: waits))
  ∧ (∀ (α : Type) (o : Nat → AttemptOutcome α) (url : String)
        (m attempt : Nat) (waits : List Nat),
      o attempt = .netError →
      safeRequestLoop o url m 1 attempt waits = (.netFail attempt, waits.reverse))
  ∧ (∀ (α : Type) (o : Nat → AttemptOutcome α) (url : String)
        (m fuel attempt : Nat) (waits : List Nat) (code : Nat) (body : α),
      o attempt = .resp code body → ¬ (200 ≤ code ∧ code < 300) →
      code ≠ 429 → code < 500 →
      safeRequestLoop o url m (fuel + 1) attempt waits
        = (.statusError code attempt, waits.reverse))
  ∧ (∀ (α : Type) (o : Nat → AttemptOutcome α) (url : String)
        (m attempt : Nat) (waits : List Nat),
      safeRequestLoop o url m 0 attempt waits = (.retriesExhausted m url, waits.reverse))
  ∧ defaultMaxRetries = 3
  ∧ (∀ (α : Type) (b : α) (o : Nat → AttemptOutcome α) (url : String),
      (∀ i, o i = .resp 429 b) →
      safeRequest o url = (.retriesExhausted 3 url, [20, 40, 80])) := by
  refine ⟨?_, ?_, ?_, ?_, ?_, ?_, ?_, rfl, ?_⟩
  · intro α o url m fuel attempt waits code body h ha hb
    have hc : 200 ≤ code ∧ code < 300 := ⟨ha, hb⟩
    rw [safeRequestLoop_succ, h]
    simp [attemptAction, hc]
  · intro α o url m fuel attempt waits body h
    rw [safeRequestLoop_succ, h]
    norm_num [attemptAction]
  · intro α o url m fuel attempt waits code body h hc
    have h1 : ¬ (200 ≤ code ∧ code < 300) := by omega
    have h2 : code ≠ 429 := by omega
    rw [safeRequestLoop_succ, h]
    simp [attemptAction, h1, h2, hc]
  · intro α o url m fuel attempt waits h
    rw [safeRequestLoop_succ, h]
    simp [attemptAction]
  · intro α o url m attempt waits h
    rw [safeRequestLoop_succ, h]
    simp [attemptAction]
  · intro α o url m fuel attempt waits code body h h2xx h429 h500
    have h2 : ¬ 500 ≤ code := by omega
    rw [safeRequestLoop_succ, h]
    simp [attemptAction, h2xx, h2, h429]
  · intro α o url m attempt waits
    rfl
  · intro α b o url h
    simp [safeRequest, safeRequestRun, defaultMaxRetries, safeRequestLoop, attemptAction,
      h 0, h 1, h 2]

/-- Witness for C4 at a concrete always-429 network, a concrete
404-answering network, a concrete 301-answering network (immediate raise:
httpx raises on 3xx too), and a concrete 200-answering network. -/
theorem C4_witness :
    (safeRequest (fun _ => AttemptOutcome.resp 429 ()) "https://x.test"
      = (.retriesExhausted 3 "https://x.test", [20, 40, 80]))
  ∧ (safeRequestLoop (fun _ => AttemptOutcome.resp 404 ()) "https://x.test" 3 3 0 []
      = (.statusError 404 0, []))
  ∧ (safeRequestLoop (fun _ => AttemptOutcome.resp 301 ()) "https://x.test" 3 3 0 []
      = (.statusError 301 0, []))
  ∧ (safeRequestLoop (fun _ => AttemptOutcome.resp 200 ()) "https://x.test" 3 3 0 []
      = (.ok () 0, [])) := by
  refine ⟨?_, ?_, ?_, ?_⟩
  · exact C4_safe_request_retry_policy.2.2.2.2.2.2.2.2 Unit ()
      (fun _ => AttemptOutcome.resp 429 ()) "https://x.test" (fun _ => rfl)
  · exact C4_safe_request_retry_policy.2.2.2.2.2.1 Unit
      (fun _ => AttemptOutcome.resp 404 ()) "https://x.test" 3 2 0 [] 404 () rfl
      (by decide) (by decide) (by decide)
  · exact C4_safe_request_retry_policy.2.2.2.2.2.1 Unit
      (fun _ => AttemptOutcome.resp 301 ()) "https://x.test" 3 2 0 [] 301 () rfl
      (by decide) (by decide) (by decide)
  · exact C4_safe_request_retry_policy.1 Unit
      (fun _ => AttemptOutcome.resp 200 ()) "https://x.test" 3 2 0 [] 200 () rfl
      (by decide) (by decide)

/-! ### Store helper lemmas -/

theorem updateFirstTrade_append_singleton (s0 : TradeStore) (k : TradeKey)
    (g : TradeDoc → TradeDoc) (d : TradeDoc) (hd : d.key = k)
    (hpre : ∀ e ∈ s0, ¬ e.key = k) :
    updateFirstTrade (s0 ++ [d]) k g = s0 ++ [g d] := by
  induction s0 with
  | nil => simp [updateFirstTrade, hd]
  | cons e rest ih =>
    have he : ¬ e.key = k := hpre e (by simp)
    have step : updateFirstTrade (e :: (rest ++ [d])) k g
        = if e.key = k then g e :: (rest ++ [d]) else e :: updateFirstTrade (rest ++ [d]) k g := rfl
    rw [List.cons_append, step, if_neg he, ih (fun x hx => hpre x (by simp [hx])), List.cons_append]

theorem findTrade_append_singleton (s0 : TradeStore) (k : TradeKey) (d : TradeDoc)
    (hd : d.key = k) (hpre : ∀ e ∈ s0, ¬ e.key = k) :
    findTrade (s0 ++ [d]) k = some d := by
  induction s0 with
  | nil => simp [findTrade, hd]
  | cons e rest ih =>
    have he : ¬ e.key = k := hpre e (by simp)
    simp only [findTrade, List.cons_append] at ih ⊢
    rw [List.find?_cons_of_neg _ (by simpa using he)]
    exact ih (fun x hx => hpre x (by simp [hx]))

theorem countTrade_append_singleton (s0 : TradeStore) (k : TradeKey) (d : TradeDoc)
    (hd : d.key = k) (h0 : countTrade s0 k = 0) :
    countTrade (s0 ++ [d]) k = 1 := by
  have h0' : List.countP (fun e => decide (e.key = k)) s0 = 0 := h0
  simp [countTrade, List.countP_append, List.countP_cons, h0', hd]

theorem upsertTrade_of_absent (s0 : TradeStore) (k : TradeKey) (f : TradeFields) (t : Nat)
    (hpre : ∀ e ∈ s0, ¬ e.key = k) :
    upsertTrade s0 k f t = s0 ++ [insertTradeDoc k f t] := by
  have hany : s0.any (fun d => d.key = k) = false := by
    simp only [List.any_eq_false, decide_eq_true_eq]
    exact hpre
  simp [upsertTrade, hany]

theorem upsertTrade_of_present_last (s0 : TradeStore) (k : TradeKey) (f : TradeFields)
    (t : Nat) (d : TradeDoc) (hd : d.key = k) (hpre : ∀ e ∈ s0, ¬ e.key = k) :
    upsertTrade (s0 ++ [d]) k f t = s0 ++ [applySetTrade d f] := by
  have hany : (s0 ++ [d]).any (fun e => e.key = k) = true := by
    simp [List.any_eq_true]
    exact Or.inr hd
  simp only [upsertTrade, hany, if_true]
  exact updateFirstTrade_append_singleton s0 k _ d hd hpre

/-- C1: starting from a store with no record for the natural key `k`,
upserting field-set `f1` and then field-set `f2` leaves exactly one stored
record for `k`; its every field is `f2`'s value when `f2` supplies the
field and `f1`'s value otherwise (`ovr`), and its creation stamp is the
first call's; in particular a field supplied by `f1` and omitted by `f2`
retains the value written by `f1`. -/
theorem C1_trade_upsert_overlay (s0 : TradeStore) (k : TradeKey) (f1 f2 : TradeFields)
    (t1 t2 : Nat) (h0 : countTrade s0 k = 0) :
    countTrade (upsertTrade (upsertTrade s0 k f1 t1) k f2 t2) k = 1 ∧
    findTrade (upsertTrade (upsertTrade s0 k f1 t1) k f2 t2) k
      = some { key := k
               reporterName := ovr f2.reporterName f1.reporterName
               partnerName := ovr f2.partnerName f1.partnerName
               hsDescription := ovr f2.hsDescription f1.hsDescription
               valueUsd := ovr f2.valueUsd f1.valueUsd
               valueEur := ovr f2.valueEur f1.valueEur
               weightKg := ovr f2.weightKg f1.weightKg
               quantity := ovr f2.quantity f1.quantity
               updatedAt := ovr f2.updatedAt f1.updatedAt
               createdAt := t1 } := by
  have hpre : ∀ e ∈ s0, ¬ e.key = k := by
    intro e he
    have := List.countP_eq_zero.mp h0 e he
    simpa using this
  have hins : (insertTradeDoc k f1 t1).key = k := rfl
  rw [upsertTrade_of_absent s0 k f1 t1 hpre,
    upsertTrade_of_present_last s0 k f2 t2 _ hins hpre]
  refine ⟨countTrade_append_singleton s0 k _ rfl h0, ?_⟩
  rw [findTrade_append_singleton s0 k _ rfl hpre]
  rfl

/-- Closed instance of C1 at the end-to-end scenario key: value 1000 with a
weight, then value 1200 without one. -/
theorem C1_witness :
    countTrade (upsertTrade (upsertTrade [] wKey wF1 10) wKey wF2 20) wKey = 1 ∧
    findTrade (upsertTrade (upsertTrade [] wKey wF1 10) wKey wF2 20) wKey
      = some { key := wKey
               reporterName := ovr wF2.reporterName wF1.reporterName
               partnerName := ovr wF2.partnerName wF1.partnerName
               hsDescription := ovr wF2.hsDescription wF1.hsDescription
               valueUsd := ovr wF2.valueUsd wF1.valueUsd
               valueEur := ovr wF2.valueEur wF1.valueEur
               weightKg := ovr wF2.weightKg wF1.weightKg
               quantity := ovr wF2.quantity wF1.quantity
               updatedAt := ovr wF2.updatedAt wF1.updatedAt
               createdAt := 10 } :=
  C1_trade_upsert_overlay [] wKey wF1 wF2 10 20 rfl

theorem updateFirstStatus_of_absent (st : StatusStore) (name : String)
    (f : StatusDoc → StatusDoc) (h : ∀ e ∈ st, ¬ e.sourceName = name) :
    updateFirstStatus st name f = st := by
  induction st with
  | nil => rfl
  | cons e rest ih =>
    have he : ¬ e.sourceName = name := h e (by simp)
    simp only [updateFirstStatus, if_neg he]
    rw [ih (fun x hx => h x (by simp [hx]))]

theorem updateFirstStatus_middle (pre : StatusStore) (d : StatusDoc) (post : StatusStore)
    (name : String) (f : StatusDoc → StatusDoc) (hd : d.sourceName = name)
    (hpre : ∀ e ∈ pre, ¬ e.sourceName = name) :
    updateFirstStatus (pre ++ d :: post) name f = pre ++ f d :: post := by
  induction pre with
  | nil => simp [updateFirstStatus, hd]
  | cons e rest ih =>
    have he : ¬ e.sourceName = name := hpre e (by simp)
    have step : updateFirstStatus (e :: (rest ++ d :: post)) name f
        = if e.sourceName = name then f e :: (rest ++ d :: post)
          else e :: updateFirstStatus (rest ++ d :: post) name f := rfl
    rw [List.cons_append, step, if_neg he,
      ih (fun x hx => hpre x (by simp [hx])), List.cons_append]

theorem findStatus_append_singleton (st : StatusStore) (x : StatusDoc) (name : String)
    (hx : x.sourceName = name) (h : ∀ e ∈ st, ¬ e.sourceName = name) :
    findStatus (st ++ [x]) name = some x := by
  induction st with
  | nil => simp [findStatus, hx]
  | cons e rest ih =>
    have he : ¬ e.sourceName = name := h e (by simp)
    simp only [findStatus, List.cons_append] at ih ⊢
    rw [List.find?_cons_of_neg _ (by simpa using he)]
    exact ih (fun x hx => h x (by simp [hx]))

theorem updateStatusDoc_sourceName (d : StatusDoc) (now : Nat) (status : String)
    (em : Option String) (recs : Nat) :
    (updateStatusDoc d now status em recs).sourceName = d.sourceName := by
  unfold updateStatusDoc
  split
  · rfl
  · split <;> rfl

theorem insertStatusDoc_sourceName (name : String) (now : Nat) (status : String)
    (em : Option String) (recs : Nat) :
    (insertStatusDoc name now status em recs).sourceName = name := by
  simp [insertStatusDoc, updateStatusDoc_sourceName]

/-- C6 (amended): `update_status` is indeed an upsert keyed by source name
— against a missing row it creates one whose `api_calls_today` starts at 0
and whose `records_fetched_today` equals the increment; on the `active`
branch it clears the error message and stamps `last_successful_fetch`; its
record counter is `$inc`-additive on existing rows.  `increment_api_calls`,
however, is a plain update without `upsert=True`: against a missing source
row it leaves the collection unchanged (the increment is lost and no row is
created); only against an existing row does it add to the counter. -/
theorem C6_status_tracker_upserts :
    (∀ (st : StatusStore) (name : String) (now : Nat) (status : String)
        (em : Option String) (recs : Nat),
      findStatus st name = none →
      updateStatus st name now status em recs
          = st ++ [insertStatusDoc name now status em recs]
        ∧ findStatus (updateStatus st name now status em recs) name
          = some (insertStatusDoc name now status em recs))
  ∧ (∀ (name : String) (now : Nat) (status : String) (em : Option String) (recs : Nat),
      (insertStatusDoc name now status em recs).sourceName = name
        ∧ (insertStatusDoc name now status em recs).apiCallsToday = 0
        ∧ (insertStatusDoc name now status em recs).recordsFetchedToday = recs)
  ∧ (∀ (d : StatusDoc) (now : Nat) (em : Option String) (recs : Nat),
      (updateStatusDoc d now "active" em recs).lastErrorMessage = some none
        ∧ (updateStatusDoc d now "active" em recs).lastSuccessfulFetch = some now)
  ∧ (∀ (d : StatusDoc) (now : Nat) (status : String) (em : Option String) (recs : Nat),
      (updateStatusDoc d now status em recs).recordsFetchedToday
          = d.recordsFetchedToday + recs
        ∧ (updateStatusDoc d now status em recs).apiCallsToday = d.apiCallsToday)
  ∧ (∀ (st : StatusStore) (name : String) (count now : Nat),
      findStatus st name = none →
      incrementApiCalls st name count now = st)
  ∧ (∀ (pre : StatusStore) (d : StatusDoc) (post : StatusStore) (count now : Nat),
      (∀ e ∈ pre, ¬ e.sourceName = d.sourceName) →
      incrementApiCalls (pre ++ d :: post) d.sourceName count now
        = pre ++ { d with apiCallsToday := d.apiCallsToday + count,
                          updatedAt := some now } :: post) := by
  refine ⟨?_, ?_, ?_, ?_, ?_, ?_⟩
  · intro st name now status em recs h
    have habs : ∀ e ∈ st, ¬ e.sourceName = name := by
      intro e he
      have := List.find?_eq_none.mp h e he
      simpa using this
    have hany : st.any (fun d => d.sourceName = name) = false := by
      simp only [List.any_eq_false, decide_eq_true_eq]
      exact habs
    have hup : updateStatus st name now status em recs
        = st ++ [insertStatusDoc name now status em recs] := by
      simp [updateStatus, hany]
    refine ⟨hup, ?_⟩
    rw [hup]
    exact findStatus_append_singleton st _ name
      (insertStatusDoc_sourceName name now status em recs) habs
  · intro name now status em recs
    refine ⟨?_, ?_, ?_⟩ <;> simp [insertStatusDoc, updateStatusDoc] <;>
      rcases em with _ | m <;> by_cases hs : status = "active" <;> simp [hs]
  · intro d now em recs
    simp [updateStatusDoc]
  · intro d now status em recs
    constructor <;> simp [updateStatusDoc] <;>
      rcases em with _ | m <;> by_cases hs : status = "active" <;> simp [hs]
  · intro st name count now h
    have habs : ∀ e ∈ st, ¬ e.sourceName = name := by
      intro e he
      have := List.find?_eq_none.mp h e he
      simpa using this
    exact updateFirstStatus_of_absent st name _ habs
  · intro pre d post count now hpre
    exact updateFirstStatus_middle pre d post d.sourceName _ rfl hpre

/-- C6 counterexample: incrementing the call counter of a source with no
status row leaves the collection empty — no row is created and no counter
reflects the increment, contradicting the claim that every operation,
including `incrementCalls`, is an upsert that creates the missing row. -/
theorem C6_counterexample :
    incrementApiCalls [] "un_comtrade" 1 0 = []
      ∧ findStatus (incrementApiCalls [] "un_comtrade" 1 0) "un_comtrade" = none := by
  constructor <;> rfl

/-- Closed instance of C6's amended statement: upserting a status for a
fresh source creates its row, and incrementing a missing row is a no-op. -/
theorem C6_witness :
    (updateStatus [] "un_comtrade" 7 "active" none 3
        = [insertStatusDoc "un_comtrade" 7 "active" none 3]
      ∧ findStatus (updateStatus [] "un_comtrade" 7 "active" none 3) "un_comtrade"
        = some (insertStatusDoc "un_comtrade" 7 "active" none 3))
  ∧ incrementApiCalls [] "otexa_tradegov" 2 9 = [] := by
  constructor
  · exact C6_status_tracker_upserts.1 [] "un_comtrade" 7 "active" none 3 rfl
  · exact C6_status_tracker_upserts.2.2.2.2.1 [] "otexa_tradegov" 2 9 rfl

/-- C8: whenever the recorded `api_calls_today` for the Comtrade source is
at or above the 480-of-500 threshold, `fetch_data` returns 0 records,
leaves both collections untouched, and issues zero `safe_request` calls —
whatever the API key and whatever the network would have answered. -/
theorem C8_soft_quota_gate (apiKey : Option String)
    (oWorld oPartners : Nat → AttemptOutcome (List ComtradeRaw))
    (db : ComtradeDb) (now : Nat)
    (h : 480 ≤ getApiCallsToday db.statusStore sourceComtrade) :
    comtradeFetchData apiKey oWorld oPartners db now = (0, db, 0) := by
  cases apiKey with
  | none => rfl
  | some k => simp [comtradeFetchData, h]

/-- Closed instance of C8 at a store already holding 480 recorded calls. -/
theorem C8_witness :
    comtradeFetchData (some "key") o200 o200 gateDb 0 = (0, gateDb, 0) :=
  C8_soft_quota_gate (some "key") o200 o200 gateDb 0 (by decide)

/-- C5 counterexample: with a network answering HTTP 404, a Comtrade
`fetch_data` run issues two `safe_request` calls (world and partners) yet
the source's `api_calls_today` counter still reads its prior value 5 — the
increment runs only after a successful `safe_request` return, so a failing
call is not counted, contradicting "once per call regardless of whether
that call succeeds or fails". -/
theorem C5_counterexample :
    (comtradeFetchData (some "key") o404 o404 c5Db 0).2.2 = 2
      ∧ getApiCallsToday
          (comtradeFetchData (some "key") o404 o404 c5Db 0).2.1.statusStore
          "un_comtrade" = 5 := by
  constructor <;> rfl

/-- C5 (amended): a `safe_request` call that returns successfully — that
is, with a 2xx response, since httpx's `raise_for_status` raises for every
other status — is counted exactly once (`increment_api_calls` by 1 right
after it); a `safe_request` call that raises is issued but never counted,
whether the final error is a non-2xx status, exhausted retries or a
network failure — the exception propagates before `increment_api_calls`,
so a run whose two sub-fetches both fail issues two fetcher calls and
leaves the database, counter included, exactly as it was. -/
theorem C5_api_call_counting :
    (∀ (o : Nat → AttemptOutcome (List ComtradeRaw)) (db : ComtradeDb) (now : Nat)
        (body : List ComtradeRaw) (a : Nat),
      (safeRequest o comtradeBaseUrl).1 = .ok body a →
      comtradeFetchCall o db now
        = (.ok ((comtradeParseAndStore db.trade now body).2,
            { statusStore := incrementApiCalls db.statusStore sourceComtrade 1 now,
              trade := (comtradeParseAndStore db.trade now body).1 }), 1))
  ∧ (∀ (o : Nat → AttemptOutcome (List ComtradeRaw)) (db : ComtradeDb) (now : Nat),
      isOkResult (safeRequest o comtradeBaseUrl).1 = false →
      comtradeFetchCall o db now
        = (.error (fetchErrMsg (safeRequest o comtradeBaseUrl).1), 1))
  ∧ (∀ (k : String) (oWorld oPartners : Nat → AttemptOutcome (List ComtradeRaw))
        (db : ComtradeDb) (now : Nat),
      isOkResult (safeRequest oWorld comtradeBaseUrl).1 = false →
      isOkResult (safeRequest oPartners comtradeBaseUrl).1 = false →
      getApiCallsToday db.statusStore sourceComtrade < 480 →
      comtradeFetchData (some k) oWorld oPartners db now = (0, db, 2)) := by
  have herr : ∀ (o : Nat → AttemptOutcome (List ComtradeRaw)) (db : ComtradeDb) (now : Nat),
      isOkResult (safeRequest o comtradeBaseUrl).1 = false →
      comtradeFetchCall o db now
        = (.error (fetchErrMsg (safeRequest o comtradeBaseUrl).1), 1) := by
    intro o db now h
    cases hr : (safeRequest o comtradeBaseUrl).1 with
    | ok body a => rw [hr] at h; simp [isOkResult] at h
    | statusError code a => simp [comtradeFetchCall, hr]
    | netFail a => simp [comtradeFetchCall, hr]
    | retriesExhausted m url => simp [comtradeFetchCall, hr]
  refine ⟨?_, herr, ?_⟩
  · intro o db now body a h
    simp [comtradeFetchCall, h]
  · intro k oWorld oPartners db now h1 h2 hlt
    have hgate : ¬ 480 ≤ getApiCallsToday db.statusStore sourceComtrade :=
      Nat.not_le.mpr hlt
    simp [comtradeFetchData, hgate, herr oWorld db now h1, herr oPartners db now h2]

/-- Closed instance of C5's amended statement: a successful (200) call is
counted once, and a 404 run as well as a 301 run — both raise, 301 because
httpx treats redirects as errors too — issue two uncounted calls each and
leave the database unchanged. -/
theorem C5_witness :
    (comtradeFetchCall o200 c5Db 0
      = (.ok ((comtradeParseAndStore c5Db.trade 0 []).2,
          { statusStore := incrementApiCalls c5Db.statusStore sourceComtrade 1 0,
            trade := (comtradeParseAndStore c5Db.trade 0 []).1 }), 1))
  ∧ comtradeFetchData (some "key") o404 o404 c5Db 0 = (0, c5Db, 2)
  ∧ comtradeFetchData (some "key") o301 o301 c5Db 0 = (0, c5Db, 2) := by
  refine ⟨?_, ?_, ?_⟩
  · exact C5_api_call_counting.1 o200 c5Db 0 [] 0 rfl
  · exact C5_api_call_counting.2.2 "key" o404 o404 c5Db 0 rfl rfl (by decide)
  · exact C5_api_call_counting.2.2 "key" o301 o301 c5Db 0 rfl rfl (by decide)

/-- C2: for every orchestrator invocation — whatever each phase returned or
raised — the produced trace contains exactly one `scheduler_runs` insert; it
is the final event (after the sixth phase, never at run start, where the
first event is phase 1); and the inserted record's top-level status is the
hard-coded `"completed"`, its `phase_results` holding all six phase keys in
execution order. -/
theorem C2_single_completed_run_record {α : Type} (runId : String) (t0 t1 : Nat)
    (trade : List (RunOutcome α)) (news mr derive fw reset : RunOutcome α) :
    ((runDailyPipeline runId t0 t1 trade news mr derive fw reset).filter isInsertRun).length = 1
  ∧ (runDailyPipeline runId t0 t1 trade news mr derive fw reset).getLast?
      = some (.insertRun (pipelineRunRecord runId t0 t1 trade news mr derive fw reset))
  ∧ (runDailyPipeline runId t0 t1 trade news mr derive fw reset).head?
      = some (.phaseStart "trade_agents")
  ∧ (pipelineRunRecord runId t0 t1 trade news mr derive fw reset).status = "completed"
  ∧ (pipelineRunRecord runId t0 t1 trade news mr derive fw reset).phaseResults.map Prod.fst
      = ["trade_agents", "news_agent", "market_research", "derive_data",
         "frameworks", "reset_counters"] :=
  ⟨rfl, rfl, rfl, rfl, rfl⟩

/-- C3: when exactly one of the four parallel trade agents raises and the
other three return success dicts, the persisted record's
`phaseResults.trade_agents` still has 4 entries — one error entry, three
success entries — and every later phase (news, market research, derive,
frameworks, counter reset) still executes and lands in `phase_results`,
with the single run insert still last. -/
theorem C3_trade_phase_isolation (runId : String) (t0 t1 : Nat)
    (trade : List (RunOutcome JobResult)) (news mr derive fw reset : RunOutcome JobResult)
    (h4 : trade.length = 4)
    (h1 : trade.countP (fun r => isRaised r) = 1)
    (hs : ∀ r ∈ trade, ∀ jr, r = RunOutcome.ok jr → jr.status = "success") :
    (pipelineRunRecord runId t0 t1 trade news mr derive fw reset).phaseResults.lookup
        "trade_agents" = some (.agents (trade.map outcomeEntry))
  ∧ (trade.map outcomeEntry).length = 4
  ∧ (trade.map outcomeEntry).countP isErrorEntry = 1
  ∧ (trade.map outcomeEntry).countP isSuccessEntry = 3
  ∧ (pipelineRunRecord runId t0 t1 trade news mr derive fw reset).phaseResults.lookup
        "news_agent" = some (.single (outcomeEntry news))
  ∧ (pipelineRunRecord runId t0 t1 trade news mr derive fw reset).phaseResults.lookup
        "market_research" = some (.single (outcomeEntry mr))
  ∧ (pipelineRunRecord runId t0 t1 trade news mr derive fw reset).phaseResults.lookup
        "derive_data" = some (.single (outcomeEntry derive))
  ∧ (pipelineRunRecord runId t0 t1 trade news mr derive fw reset).phaseResults.lookup
        "frameworks" = some (.single (outcomeEntry fw))
  ∧ (pipelineRunRecord runId t0 t1 trade news mr derive fw reset).phaseResults.lookup
        "reset_counters" = some (.single (outcomeEntry reset))
  ∧ (runDailyPipeline runId t0 t1 trade news mr derive fw reset).getLast?
      = some (.insertRun (pipelineRunRecord runId t0 t1 trade news mr derive fw reset)) := by
  have e1 : (trade.map outcomeEntry).countP isErrorEntry
      = trade.countP (fun r => isRaised r) := by
    rw [List.countP_map]
    apply List.countP_congr
    intro r _
    cases r <;> simp [outcomeEntry, isErrorEntry, isRaised, Function.comp]
  have e2 : (trade.map outcomeEntry).countP isSuccessEntry
      = trade.countP (fun r => ¬ isRaised r) := by
    rw [List.countP_map]
    apply List.countP_congr
    intro r hr
    cases r with
    | ok jr =>
      have hst := hs _ hr jr rfl
      simp [outcomeEntry, isSuccessEntry, isRaised, Function.comp, hst]
    | raised m => simp [outcomeEntry, isSuccessEntry, isRaised, Function.comp]
  have e3 : trade.length
      = trade.countP (fun r => isRaised r) + trade.countP (fun r => ¬ isRaised r) :=
    List.length_eq_countP_add_countP (fun r => isRaised r) trade
  refine ⟨rfl, by simp [h4], by rw [e1]; exact h1, by rw [e2]; omega,
    rfl, rfl, rfl, rfl, rfl, rfl⟩

/-- Closed instance of C3: Comtrade raises, the other three agents return
success dicts. -/
theorem C3_witness :
    ((pipelineRunRecord "run" 0 9
        [RunOutcome.ok (jobFetchEurostat (.ok 5)),
         RunOutcome.raised "boom",
         RunOutcome.ok { source := "federal_register", records := some 2,
                         status := "success", message := none },
         RunOutcome.ok { source := "otexa", records := some 1,
                         status := "success", message := none }]
        (.ok { source := "openai_search", records := some 0, status := "success", message := none })
        (.ok { source := "market_research_agent", records := some 0, status := "success", message := none })
        (.ok { source := "derive", records := some 0, status := "success", message := none })
        (.ok { source := "frameworks", records := none, status := "success", message := none })
        (.ok { source := "reset", records := none, status := "success", message := none })).phaseResults.lookup
        "trade_agents").isSome = true
  ∧ ([RunOutcome.ok (jobFetchEurostat (.ok 5)),
      RunOutcome.raised "boom",
      RunOutcome.ok { source := "federal_register", records := some 2,
                      status := "success", message := none },
      RunOutcome.ok { source := "otexa", records := some 1,
                      status := "success", message := none }].map outcomeEntry).countP
        isErrorEntry = 1
  ∧ ([RunOutcome.ok (jobFetchEurostat (.ok 5)),
      RunOutcome.raised "boom",
      RunOutcome.ok { source := "federal_register", records := some 2,
                      status := "success", message := none },
      RunOutcome.ok { source := "otexa", records := some 1,
                      status := "success", message := none }].map outcomeEntry).countP
        isSuccessEntry = 3 := by
  have h := C3_trade_phase_isolation "run" 0 9
    [RunOutcome.ok (jobFetchEurostat (.ok 5)),
     RunOutcome.raised "boom",
     RunOutcome.ok { source := "federal_register", records := some 2,
                     status := "success", message := none },
     RunOutcome.ok { source := "otexa", records := some 1,
                     status := "success", message := none }]
    (.ok { source := "openai_search", records := some 0, status := "success", message := none })
    (.ok { source := "market_research_agent", records := some 0, status := "success", message := none })
    (.ok { source := "derive", records := some 0, status := "success", message := none })
    (.ok { source := "frameworks", records := none, status := "success", message := none })
    (.ok { source := "reset", records := none, status := "success", message := none })
    rfl rfl (by
      intro r hr jr hjr
      subst hjr
      simp only [List.mem_cons, List.not_mem_nil, or_false] at hr
      rcases hr with h | h | h | h <;> simp_all [jobFetchEurostat])
  exact ⟨by rw [h.1]; rfl, h.2.2.1, h.2.2.2.1⟩

/-- C7 counterexample: with both engine credentials configured and engine A
(OpenAI) succeeding on every query, the GeneralWatcher news agent still
invokes engine B (Gemini) once per query — 7 invocations, not 0.  The
claim's "every AI-search agent tries engine B only when engine A fails or
is unavailable" is therefore false for the GeneralWatcher, which runs the
two engines additively. -/
theorem C7_counterexample :
    (gwFetchData true true (fun _ => .ok 1) (fun _ => .ok 1)).2.2 = 7
      ∧ ¬ (gwFetchData true true (fun _ => .ok 1) (fun _ => .ok 1)).2.2 = 0 := by
  constructor
  · rfl
  · decide

/-- C7 (amended): the market-research agent's `_ai_search` implements the
two-engine fallback — OpenAI first, returning its content without invoking
Gemini on success; Gemini attempted exactly when OpenAI fails or has no
credential; empty content when both fail or neither is configured, which
the callers turn into zero records.  The GeneralWatcher news agent instead
runs every configured engine over all 7 queries unconditionally, summing
their stored counts; with no engine configured it stores nothing. -/
theorem C7_ai_search_engine_policy :
    (∀ (s : String) (g : Bool) (gr : EngineOutcome),
      aiSearch true (.ok s) g gr = (s, true, false))
  ∧ (∀ (m : String) (gr : EngineOutcome),
      aiSearch true (.exn m) true gr = (engineContent gr, true, true))
  ∧ (∀ (o gr : EngineOutcome),
      aiSearch false o true gr = (engineContent gr, false, true))
  ∧ (∀ (m m2 : String), aiSearch true (.exn m) true (.exn m2) = ("", true, true))
  ∧ (∀ (o gr : EngineOutcome), aiSearch false o false gr = ("", false, false))
  ∧ (∀ (m : String) (gr : EngineOutcome), aiSearch true (.exn m) false gr = ("", true, false))
  ∧ (∀ n : Nat, searchStepRecords "" n = 0)
  ∧ (∀ oRes gRes : String → RunOutcome Nat,
      (gwFetchData true true oRes gRes).2.1 = 7 ∧ (gwFetchData true true oRes gRes).2.2 = 7)
  ∧ (∀ oRes gRes : String → RunOutcome Nat, gwFetchData false false oRes gRes = (0, 0, 0)) := by
  refine ⟨fun s g gr => rfl, fun m gr => ?_, fun o gr => ?_, fun m m2 => rfl,
    fun o gr => rfl, fun m gr => rfl, fun n => rfl, fun oRes gRes => ⟨rfl, rfl⟩,
    fun oRes gRes => rfl⟩
  · cases gr <;> rfl
  · cases gr <;> rfl

/-! ### Generic lemmas for the insert-if-absent loops of the derive job -/

theorem insertIfMissing_cons {α β : Type} (km : β → α → Bool) (mk : β → α)
    (init : List α) (n : Nat) (c : β) (rest : List β) :
    insertIfMissing km mk (init, n) (c :: rest)
      = insertIfMissing km mk
          (if init.any (km c) then (init, n) else (init ++ [mk c], n + 1)) rest := rfl

theorem insertIfMissing_shape {α β : Type} (km : β → α → Bool) (mk : β → α) :
    ∀ (cands : List β) (init : List α) (n : Nat),
      ∃ ex : List α, (insertIfMissing km mk (init, n) cands).1 = init ++ ex := by
  intro cands
  induction cands with
  | nil => exact fun init n => ⟨[], by simp [insertIfMissing]⟩
  | cons c rest ih =>
    intro init n
    by_cases h : init.any (km c) = true
    · rw [insertIfMissing_cons, if_pos h]
      exact ih init n
    · rw [insertIfMissing_cons, if_neg h]
      obtain ⟨ex, hex⟩ := ih (init ++ [mk c]) (n + 1)
      exact ⟨mk c :: ex, by rw [hex, List.append_assoc]; rfl⟩

theorem insertIfMissing_preserves_any {α β : Type} (km : β → α → Bool) (mk : β → α)
    (cands : List β) (init : List α) (n : Nat) (p : α → Bool) (h : init.any p = true) :
    (insertIfMissing km mk (init, n) cands).1.any p = true := by
  obtain ⟨ex, hex⟩ := insertIfMissing_shape km mk cands init n
  rw [hex]
  simp [List.any_append, h]

theorem insertIfMissing_complete {α β : Type} (km : β → α → Bool) (mk : β → α)
    (hk : ∀ c, km c (mk c) = true) :
    ∀ (cands : List β) (init : List α) (n : Nat) (c : β), c ∈ cands →
      (insertIfMissing km mk (init, n) cands).1.any (km c) = true := by
  intro cands
  induction cands with
  | nil => intro init n c hc; simp at hc
  | cons c0 rest ih =>
    intro init n c hc
    rcases List.mem_cons.mp hc with rfl | hmem
    · by_cases h : init.any (km c) = true
      · rw [insertIfMissing_cons, if_pos h]
        exact insertIfMissing_preserves_any km mk rest init n (km c) h
      · rw [insertIfMissing_cons, if_neg h]
        exact insertIfMissing_preserves_any km mk rest (init ++ [mk c]) (n + 1) (km c)
          (by simp [List.any_append, hk c])
    · by_cases h : init.any (km c0) = true
      · rw [insertIfMissing_cons, if_pos h]
        exact ih init n c hmem
      · rw [insertIfMissing_cons, if_neg h]
        exact ih (init ++ [mk c0]) (n + 1) c hmem

theorem insertIfMissing_of_all_present {α β : Type} (km : β → α → Bool) (mk : β → α) :
    ∀ (cands : List β) (init : List α) (n : Nat),
      (∀ c ∈ cands, init.any (km c) = true) →
      insertIfMissing km mk (init, n) cands = (init, n) := by
  intro cands
  induction cands with
  | nil => intro init n _; rfl
  | cons c rest ih =>
    intro init n h
    rw [insertIfMissing_cons, if_pos (h c (by simp))]
    exact ih init n (fun c' hc' => h c' (by simp [hc']))

/-- One-step unfolding of `job_derive_market_data` into its four loops. -/
theorem jobDeriveMarketData_unfold (db : DeriveDb) (now : Nat) :
    jobDeriveMarketData db now
      = ({ segments := (deriveSegStage2 now (deriveSegStage1 now db.segments).1
              (deriveSegStage1 now db.segments).2).1,
           sizes := (deriveSizeStage2 now db.trades
              (deriveSizeStage1 now db.trades db.sizes).1
              (deriveSizeStage1 now db.trades db.sizes).2).1,
           trades := db.trades },
         (deriveSegStage2 now (deriveSegStage1 now db.segments).1
            (deriveSegStage1 now db.segments).2).2,
         (deriveSizeStage2 now db.trades
            (deriveSizeStage1 now db.trades db.sizes).1
            (deriveSizeStage1 now db.trades db.sizes).2).2) := rfl

/-- C9: re-running the derive job immediately after a previous run creates
no additional segment and no additional market-size entry, whatever the
state of the trade-record store — every derived key already exists and is
skipped, so the second run reports `(0, 0)` and leaves the database
unchanged. -/
theorem C9_derive_idempotent (db : DeriveDb) (now1 now2 : Nat) :
    jobDeriveMarketData (jobDeriveMarketData db now1).1 now2
      = ((jobDeriveMarketData db now1).1, 0, 0) := by
  have hkch : ∀ ch, chapterSegMatch ch (mkChapterSeg now1 ch) = true := by
    intro ch; simp [chapterSegMatch, mkChapterSeg]
  have hkag : ∀ c, aggSegMatch c (mkAggSeg now1 c) = true := by
    intro c; simp [aggSegMatch, mkAggSeg]
  have hkcs : ∀ g, chapterSizeMatch g (mkChapterSize now1 g) = true := by
    intro g; simp [chapterSizeMatch, mkChapterSize, sizeKeyMatch]
  have hkts : ∀ g, totalSizeMatch g (mkTotalSize now1 g) = true := by
    intro g; simp [totalSizeMatch, mkTotalSize, sizeKeyMatch]
  -- the segment and size stores the first run leaves behind
  have hSeg1 : deriveSegStage1 now2
      (deriveSegStage2 now1 (deriveSegStage1 now1 db.segments).1
        (deriveSegStage1 now1 db.segments).2).1
      = ((deriveSegStage2 now1 (deriveSegStage1 now1 db.segments).1
          (deriveSegStage1 now1 db.segments).2).1, 0) := by
    unfold deriveSegStage1
    apply insertIfMissing_of_all_present
    intro c hc
    show (deriveSegStage2 now1 (deriveSegStage1 now1 db.segments).1
        (deriveSegStage1 now1 db.segments).2).1.any (chapterSegMatch c) = true
    unfold deriveSegStage2 deriveSegStage1
    exact insertIfMissing_preserves_any aggSegMatch (mkAggSeg now1) aggregateSegments
      (insertIfMissing chapterSegMatch (mkChapterSeg now1) (db.segments, 0) textileHsChapters).1
      (insertIfMissing chapterSegMatch (mkChapterSeg now1) (db.segments, 0) textileHsChapters).2
      (chapterSegMatch c)
      (insertIfMissing_complete chapterSegMatch (mkChapterSeg now1) hkch
        textileHsChapters db.segments 0 c hc)
  have hSeg1fst : (deriveSegStage1 now2
      (deriveSegStage2 now1 (deriveSegStage1 now1 db.segments).1
        (deriveSegStage1 now1 db.segments).2).1).1
      = (deriveSegStage2 now1 (deriveSegStage1 now1 db.segments).1
          (deriveSegStage1 now1 db.segments).2).1 := by rw [hSeg1]
  have hSeg1snd : (deriveSegStage1 now2
      (deriveSegStage2 now1 (deriveSegStage1 now1 db.segments).1
        (deriveSegStage1 now1 db.segments).2).1).2 = 0 := by rw [hSeg1]
  have hSeg2 : deriveSegStage2 now2
      (deriveSegStage2 now1 (deriveSegStage1 now1 db.segments).1
        (deriveSegStage1 now1 db.segments).2).1 0
      = ((deriveSegStage2 now1 (deriveSegStage1 now1 db.segments).1
          (deriveSegStage1 now1 db.segments).2).1, 0) := by
    unfold deriveSegStage2
    apply insertIfMissing_of_all_present
    intro c hc
    show (deriveSegStage2 now1 (deriveSegStage1 now1 db.segments).1
        (deriveSegStage1 now1 db.segments).2).1.any (aggSegMatch c) = true
    unfold deriveSegStage2 deriveSegStage1
    exact insertIfMissing_complete aggSegMatch (mkAggSeg now1) hkag aggregateSegments
      (insertIfMissing chapterSegMatch (mkChapterSeg now1) (db.segments, 0) textileHsChapters).1
      (insertIfMissing chapterSegMatch (mkChapterSeg now1) (db.segments, 0) textileHsChapters).2
      c hc
  have hSize1 : deriveSizeStage1 now2 db.trades
      (deriveSizeStage2 now1 db.trades (deriveSizeStage1 now1 db.trades db.sizes).1
        (deriveSizeStage1 now1 db.trades db.sizes).2).1
      = ((deriveSizeStage2 now1 db.trades (deriveSizeStage1 now1 db.trades db.sizes).1
          (deriveSizeStage1 now1 db.trades db.sizes).2).1, 0) := by
    unfold deriveSizeStage1
    apply insertIfMissing_of_all_present
    intro g hg
    show (deriveSizeStage2 now1 db.trades (deriveSizeStage1 now1 db.trades db.sizes).1
        (deriveSizeStage1 now1 db.trades db.sizes).2).1.any (chapterSizeMatch g) = true
    unfold deriveSizeStage2 deriveSizeStage1
    exact insertIfMissing_preserves_any totalSizeMatch (mkTotalSize now1)
      (tradeTotalGroups db.trades)
      (insertIfMissing chapterSizeMatch (mkChapterSize now1) (db.sizes, 0)
        (deriveChapterCands db.trades)).1
      (insertIfMissing chapterSizeMatch (mkChapterSize now1) (db.sizes, 0)
        (deriveChapterCands db.trades)).2
      (chapterSizeMatch g)
      (insertIfMissing_complete chapterSizeMatch (mkChapterSize now1) hkcs
        (deriveChapterCands db.trades) db.sizes 0 g hg)
  have hSize1fst : (deriveSizeStage1 now2 db.trades
      (deriveSizeStage2 now1 db.trades (deriveSizeStage1 now1 db.trades db.sizes).1
        (deriveSizeStage1 now1 db.trades db.sizes).2).1).1
      = (deriveSizeStage2 now1 db.trades (deriveSizeStage1 now1 db.trades db.sizes).1
          (deriveSizeStage1 now1 db.trades db.sizes).2).1 := by rw [hSize1]
  have hSize1snd : (deriveSizeStage1 now2 db.trades
      (deriveSizeStage2 now1 db.trades (deriveSizeStage1 now1 db.trades db.sizes).1
        (deriveSizeStage1 now1 db.trades db.sizes).2).1).2 = 0 := by rw [hSize1]
  have hSize2 : deriveSizeStage2 now2 db.trades
      (deriveSizeStage2 now1 db.trades (deriveSizeStage1 now1 db.trades db.sizes).1
        (deriveSizeStage1 now1 db.trades db.sizes).2).1 0
      = ((deriveSizeStage2 now1 db.trades (deriveSizeStage1 now1 db.trades db.sizes).1
          (deriveSizeStage1 now1 db.trades db.sizes).2).1, 0) := by
    unfold deriveSizeStage2
    apply insertIfMissing_of_all_present
    intro g hg
    show (deriveSizeStage2 now1 db.trades (deriveSizeStage1 now1 db.trades db.sizes).1
        (deriveSizeStage1 now1 db.trades db.sizes).2).1.any (totalSizeMatch g) = true
    unfold deriveSizeStage2 deriveSizeStage1
    exact insertIfMissing_complete totalSizeMatch (mkTotalSize now1) hkts
      (tradeTotalGroups db.trades)
      (insertIfMissing chapterSizeMatch (mkChapterSize now1) (db.sizes, 0)
        (deriveChapterCands db.trades)).1
      (insertIfMissing chapterSizeMatch (mkChapterSize now1) (db.sizes, 0)
        (deriveChapterCands db.trades)).2
      g hg
  have E1 : (jobDeriveMarketData db now1).1
      = { segments := (deriveSegStage2 now1 (deriveSegStage1 now1 db.segments).1
            (deriveSegStage1 now1 db.segments).2).1,
          sizes := (deriveSizeStage2 now1 db.trades (deriveSizeStage1 now1 db.trades db.sizes).1
            (deriveSizeStage1 now1 db.trades db.sizes).2).1,
          trades := db.trades } := by
    rw [jobDeriveMarketData_unfold]
  rw [E1]
  generalize hT : (deriveSegStage2 now1 (deriveSegStage1 now1 db.segments).1
      (deriveSegStage1 now1 db.segments).2).1 = T at hSeg1fst hSeg1snd hSeg2 ⊢
  generalize hZ : (deriveSizeStage2 now1 db.trades (deriveSizeStage1 now1 db.trades db.sizes).1
      (deriveSizeStage1 now1 db.trades db.sizes).2).1 = Z at hSize1fst hSize1snd hSize2 ⊢
  simp only [jobDeriveMarketData_unfold]
  rw [hSeg1fst, hSeg1snd, hSeg2, hSize1fst, hSize1snd, hSize2]

/-- C10 counterexample: the period string `" 123"` is neither a 4-digit
year nor a 6-digit year-month, yet the Comtrade parser stores the record —
`len(" 123") == 4` and Python's `int` strips the blank, yielding the valid
date `0123-01-01` — so "any other period string is skipped without being
stored" is false as stated. -/
theorem C10_counterexample :
    isFourDigitYear " 123" = false
  ∧ isSixDigitYearMonth " 123" = false
  ∧ (comtradeParseAndStore [] 0 [wsPeriodRec]).2 = 1
  ∧ (comtradeParseAndStore [] 0 [wsPeriodRec]).1.length = 1
  ∧ parsePeriodComtrade " 123" = some ⟨123, 1, 1⟩ := by
  refine ⟨rfl, rfl, rfl, rfl, rfl⟩

theorem parsePeriodComtrade_day (s : String) (pd : PDate)
    (h : parsePeriodComtrade s = some pd) :
    (s.length = 4 ∨ s.length = 6) ∧ pd.day = 1 ∧ (s.length = 4 → pd.month = 1) := by
  unfold parsePeriodComtrade at h
  by_cases h4 : s.length = 4
  · rw [if_pos h4] at h
    rcases hy : pyInt s with _ | y
    · rw [hy] at h; simp at h
    · rw [hy] at h
      simp only [Option.some_bind] at h
      unfold pyDate at h
      by_cases hc : 1 ≤ y ∧ y ≤ 9999 ∧ 1 ≤ (1 : Int) ∧ (1 : Int) ≤ 12
      · rw [if_pos hc] at h
        cases h
        exact ⟨Or.inl h4, rfl, fun _ => rfl⟩
      · rw [if_neg hc] at h; simp at h
  · rw [if_neg h4] at h
    by_cases h6 : s.length = 6
    · rw [if_pos h6] at h
      rcases hy : pyInt (strSlice s 0 4) with _ | y
      · rw [hy] at h; simp at h
      · rw [hy] at h
        simp only [Option.some_bind] at h
        rcases hm : pyInt (strSlice s 4 6) with _ | m
        · rw [hm] at h; simp at h
        · rw [hm] at h
          simp only [Option.some_bind] at h
          unfold pyDate at h
          by_cases hc : 1 ≤ y ∧ y ≤ 9999 ∧ 1 ≤ m ∧ m ≤ 12
          · rw [if_pos hc] at h
            cases h
            exact ⟨Or.inr h6, rfl, fun hl => absurd hl h4⟩
          · rw [if_neg hc] at h; simp at h
    · rw [if_neg h6] at h; simp at h

theorem comtradeProcessRecord_good (now : Nat) (r : ComtradeRaw) (k : TradeKey)
    (fs : TradeFields) (h : comtradeProcessRecord now r = some (k, fs)) :
    (k.flow = "import" ∨ k.flow = "export") ∧ k.periodDate.day = 1 := by
  unfold comtradeProcessRecord at h
  by_cases hM : r.flowCode = "M"
  · rw [hM] at h
    simp only [if_pos] at h
    rcases hp : parsePeriodComtrade r.period with _ | pd
    · rw [hp] at h; simp at h
    · rw [hp] at h
      simp only [Option.some.injEq, Prod.mk.injEq] at h
      obtain ⟨hk, _⟩ := h
      subst hk
      exact ⟨Or.inl rfl, (parsePeriodComtrade_day r.period pd hp).2.1⟩
  · by_cases hX : r.flowCode = "X"
    · rw [if_neg hM, if_pos hX] at h
      rcases hp : parsePeriodComtrade r.period with _ | pd
      · rw [hp] at h; simp at h
      · rw [hp] at h
        simp only [Option.some.injEq, Prod.mk.injEq] at h
        obtain ⟨hk, _⟩ := h
        subst hk
        exact ⟨Or.inr rfl, (parsePeriodComtrade_day r.period pd hp).2.1⟩
    · rw [if_neg hM, if_neg hX] at h
      simp at h

theorem updateFirstTrade_mem (g : TradeDoc → TradeDoc) :
    ∀ (st : TradeStore) (k : TradeKey) (d : TradeDoc), d ∈ updateFirstTrade st k g →
      ∃ d0 ∈ st, d = d0 ∨ d = g d0 := by
  intro st
  induction st with
  | nil => intro k d hd; simp [updateFirstTrade] at hd
  | cons e rest ih =>
    intro k d hd
    by_cases he : e.key = k
    · rw [updateFirstTrade, if_pos he] at hd
      rcases List.mem_cons.mp hd with rfl | hmem
      · exact ⟨e, by simp, Or.inr rfl⟩
      · exact ⟨d, by simp [hmem], Or.inl rfl⟩
    · rw [updateFirstTrade, if_neg he] at hd
      rcases List.mem_cons.mp hd with rfl | hmem
      · exact ⟨d, by simp, Or.inl rfl⟩
      · obtain ⟨d0, hd0, hor⟩ := ih k d hmem
        exact ⟨d0, by simp [hd0], hor⟩

/-- Every document of `upsertTrade st k fs now` either shares its key with
a prior document of `st` or has key `k`. -/
theorem upsertTrade_key_mem (st : TradeStore) (k : TradeKey) (fs : TradeFields)
    (now : Nat) (d : TradeDoc) (hd : d ∈ upsertTrade st k fs now) :
    (∃ d0 ∈ st, d0.key = d.key) ∨ d.key = k := by
  unfold upsertTrade at hd
  by_cases hany : st.any (fun e => e.key = k) = true
  · rw [if_pos hany] at hd
    obtain ⟨d0, hd0, hor⟩ := updateFirstTrade_mem _ st k d hd
    rcases hor with h | h
    · exact Or.inl ⟨d0, hd0, by simp [h]⟩
    · exact Or.inl ⟨d0, hd0, by simp [h, applySetTrade]⟩
  · rw [if_neg hany] at hd
    rcases List.mem_append.mp hd with hmem | hmem
    · exact Or.inl ⟨d, hmem, rfl⟩
    · rcases List.mem_singleton.mp hmem with rfl
      exact Or.inr rfl

/-- The membership invariant of the `_parse_and_store` fold: every stored
document either shares a key with the initial store or was written by a
record that passed the flow and period filters. -/
theorem comtradeParseAndStore_store_mem (now : Nat) :
    ∀ (recs : List ComtradeRaw) (acc : TradeStore × Nat),
      ∀ d ∈ (recs.foldl (fun acc2 rec =>
          match comtradeProcessRecord now rec with
          | none => acc2
          | some (k, f) => (upsertTrade acc2.1 k f now, acc2.2 + 1)) acc).1,
        (∃ d0 ∈ acc.1, d0.key = d.key)
          ∨ ((d.key.flow = "import" ∨ d.key.flow = "export")
              ∧ d.key.periodDate.day = 1) := by
  intro recs
  induction recs with
  | nil => intro acc d hd; exact Or.inl ⟨d, hd, rfl⟩
  | cons r rest ih =>
    intro acc d hd
    rw [List.foldl_cons] at hd
    rcases hproc : comtradeProcessRecord now r with _ | ⟨k, fs⟩
    · rw [hproc] at hd
      exact ih acc d hd
    · rw [hproc] at hd
      rcases ih _ d hd with ⟨d0, hd0, hkey⟩ | hgood
      · rcases upsertTrade_key_mem acc.1 k fs now d0 hd0 with ⟨d1, hd1, hk1⟩ | hk0
        · exact Or.inl ⟨d1, hd1, hk1.trans hkey⟩
        · have hg := comtradeProcessRecord_good now r k fs hproc
          rw [← hkey, hk0]
          exact Or.inr hg
      · exact Or.inr hgood

/-- C10 (amended): every record the Comtrade agent stores has flow
`import` or `export` and a period truncated to the first day of its month
(month forced to January for yearly periods); an upstream record with any
other flow code, or whose period string the parser rejects — length other
than 4 or 6, or failing Python `int` parsing (which tolerates surrounding
whitespace, a sign and digit-group underscores) or calendar validation —
is skipped without being stored and without aborting the rest of the
batch. -/
theorem C10_comtrade_record_filtering :
    (∀ (st : TradeStore) (now : Nat) (recs : List ComtradeRaw),
      ∀ d ∈ (comtradeParseAndStore st now recs).1,
        (∃ d0 ∈ st, d0.key = d.key)
          ∨ ((d.key.flow = "import" ∨ d.key.flow = "export")
              ∧ d.key.periodDate.day = 1))
  ∧ (∀ (st : TradeStore) (now : Nat) (r : ComtradeRaw) (rest : List ComtradeRaw),
      r.flowCode ≠ "M" → r.flowCode ≠ "X" →
      comtradeParseAndStore st now (r :: rest) = comtradeParseAndStore st now rest)
  ∧ (∀ (st : TradeStore) (now : Nat) (r : ComtradeRaw) (rest : List ComtradeRaw),
      parsePeriodComtrade r.period = none →
      comtradeParseAndStore st now (r :: rest) = comtradeParseAndStore st now rest)
  ∧ (∀ (s : String) (pd : PDate), parsePeriodComtrade s = some pd →
      (s.length = 4 ∨ s.length = 6) ∧ pd.day = 1 ∧ (s.length = 4 → pd.month = 1)) := by
  refine ⟨?_, ?_, ?_, parsePeriodComtrade_day⟩
  · intro st now recs d hd
    exact comtradeParseAndStore_store_mem now recs (st, 0) d hd
  · intro st now r rest hM hX
    have hp : comtradeProcessRecord now r = none := by
      simp [comtradeProcessRecord, hM, hX]
    simp [comtradeParseAndStore, hp]
  · intro st now r rest hper
    have hp : comtradeProcessRecord now r = none := by
      by_cases hM : r.flowCode = "M"
      · simp [comtradeProcessRecord, hM, hper]
      · by_cases hX : r.flowCode = "X"
        · simp [comtradeProcessRecord, hM, hX, hper]
        · simp [comtradeProcessRecord, hM, hX]
    simp [comtradeParseAndStore, hp]

/-- Closed instance of C10's amended statement: a `"T"`-flow record and a
length-2 period record are both skipped while the rest of the batch is
processed, and the yearly period `"2024"` parses to January 1st. -/
theorem C10_witness :
    comtradeParseAndStore [] 5 [cxBadFlowRec, cxGoodRec]
        = comtradeParseAndStore [] 5 [cxGoodRec]
  ∧ comtradeParseAndStore [] 5 [cxShortPeriodRec, cxGoodRec]
        = comtradeParseAndStore [] 5 [cxGoodRec]
  ∧ (("2024".length = 4 ∨ "2024".length = 6) ∧ (⟨2024, 1, 1⟩ : PDate).day = 1
        ∧ ("2024".length = 4 → (⟨2024, 1, 1⟩ : PDate).month = 1)) := by
  refine ⟨?_, ?_, ?_⟩
  · exact C10_comtrade_record_filtering.2.1 [] 5 cxBadFlowRec [cxGoodRec]
      (by decide) (by decide)
  · exact C10_comtrade_record_filtering.2.2.1 [] 5 cxShortPeriodRec [cxGoodRec] rfl
  · exact C10_comtrade_record_filtering.2.2.2 "2024" ⟨2024, 1, 1⟩ rfl

end CTTH